import Mathlib

/-!
Verification of the reliability core of imkalcor/Network (a RakNet-style
transport for Minecraft Bedrock), via a shallow embedding of the Rust
sources in Lean 4.

The embedding follows the crate's live module tree (src/main.rs declares
`net::{socket, stream}`, `generic`, `protocol`; the files net/listener.rs
and net/conn.rs are not declared in net/mod.rs and are dead code).

Machine integers are modelled as Nat holding the bit pattern (u8/u16/u24/
u32/u64 values, i16/i64 as their two's-complement patterns); byte buffers
are List Nat with entries < 256.  Fallible Rust code returns a result in
`PResult`, which distinguishes a recoverable io::Error (`err`, what the
spec calls a short read / malformed input) from a Rust panic (`panics`,
e.g. bytes::Buf::advance past the end of the buffer, Vec::insert out of
bounds, or .unwrap() on Err).
-/

namespace RakNet

/-- Outcome of running a piece of Rust code that may return
`Err(io::Error)` (recoverable, `err`) or panic (`panics`). -/
inductive PResult (α : Type) where
  | ok (a : α)
  | err
  | panics
deriving DecidableEq, Repr

/-- `std::io::Cursor<&[u8]>`: a byte buffer plus an absolute position. -/
structure Cursor where
  buf : List Nat
  pos : Nat
deriving DecidableEq, Repr

/-- Number of bytes left in the cursor (`bytes::Buf::remaining`). -/
def Cursor.remaining (c : Cursor) : Nat := c.buf.length - c.pos

/-- A parser over a cursor: the state-passing shape shared by every
`Binary::deserialize` implementation in the crate. -/
def P (α : Type) : Type := Cursor → PResult (α × Cursor)

def P.pure (a : α) : P α := fun c => .ok (a, c)

def P.bind (p : P α) (f : α → P β) : P β := fun c =>
  match p c with
  | .ok (a, c') => f a c'
  | .err => .err
  | .panics => .panics

instance : Monad P where
  pure := P.pure
  bind := P.bind

/-- `byteorder::ReadBytesExt::read_u8` on a cursor: one byte, or a
recoverable io::Error at end of buffer. -/
def readU8 : P Nat := fun c =>
  match c.buf.drop c.pos with
  | [] => .err
  | b :: _ => .ok (b, ⟨c.buf, c.pos + 1⟩)

/-- `std::io::Read::read_exact` of `n` bytes: the bytes, or a recoverable
io::Error if fewer than `n` remain. -/
def readExact (n : Nat) : P (List Nat) := fun c =>
  let r := c.buf.drop c.pos
  if n ≤ r.length then .ok (r.take n, ⟨c.buf, c.pos + n⟩) else .err

/-- `bytes::Buf::advance` on `Cursor<&[u8]>`: PANICS when asked to advance
past the remaining bytes (its documented contract). -/
def advanceBy (n : Nat) : P Unit := fun c =>
  if c.pos + n ≤ c.buf.length then .ok ((), ⟨c.buf, c.pos + n⟩) else .panics

/-- Recoverable failure (`Err(io::Error::new(..))`). -/
def pfail : P α := fun _ => .err

/-- Big-endian bytes of the low `w` bytes of `v` (byteorder BE writers). -/
def natToBE : Nat → Nat → List Nat
  | 0, _ => []
  | w + 1, v => natToBE w (v / 256) ++ [v % 256]

/-- Little-endian bytes of the low `w` bytes of `v` (byteorder LE writers). -/
def natToLE : Nat → Nat → List Nat
  | 0, _ => []
  | w + 1, v => v % 256 :: natToLE w (v / 256)

/-- Read back a big-endian byte list as a Nat. -/
def fromBE (l : List Nat) : Nat := l.foldl (fun acc b => acc * 256 + b) 0

/-- Read back a little-endian byte list as a Nat. -/
def fromLE : List Nat → Nat
  | [] => 0
  | b :: rest => b + 256 * fromLE rest

/-! ## Protocol constants (src/protocol/mod.rs) -/

def PROTOCOL_VERSION : Nat := 11
def MAX_MTU_SIZE : Nat := 1500
def MAX_SPLIT_PACKETS : Nat := 250
def MAX_BATCHED_PACKETS : Nat := 100
def UDP_HEADER_SIZE : Nat := 20 + 8
def DATAGRAM_HEADER_SIZE : Nat := 1 + 3
def FRAME_HEADER_SIZE : Nat := 1 + 2 + 3 + 3 + 1
def FRAME_ADDITIONAL_SIZE : Nat := 4 + 2 + 4
def FLAG_DATAGRAM : Nat := 0x80
def FLAG_NEEDS_B_AND_AS : Nat := 0x04
def FLAG_ACK : Nat := 0x40
def FLAG_NACK : Nat := 0x20
def FLAG_FRAGMENTED : Nat := 0x10
def WINDOW_SIZE : Nat := 2048
def MAX_MSGS_PER_SEC : Nat := 100
def MAX_INVALID_MSGS : Nat := 20

/-- RAKNET_BLOCK_DUR.as_secs(): 10 seconds. -/
def RAKNET_BLOCK_DUR_SECS : Nat := 10

/-- UNCONNECTED_MESSAGE_SEQUENCE, the 16-byte magic constant. -/
def UNCONNECTED_MESSAGE_SEQUENCE : List Nat :=
  [0x00, 0xff, 0xff, 0x00, 0xfe, 0xfe, 0xfe, 0xfe,
   0xfd, 0xfd, 0xfd, 0xfd, 0x12, 0x34, 0x56, 0x78]

/-! ## Reliability (src/protocol/reliability.rs) -/

inductive Reliability where
  | Unreliable
  | UnreliableSequenced
  | Reliable
  | ReliableOrdered
  | ReliableSequenced
deriving DecidableEq, Repr

/-- The discriminant of the Rust enum (`reliability as u8`). -/
def Reliability.toU8 : Reliability → Nat
  | .Unreliable => 0
  | .UnreliableSequenced => 1
  | .Reliable => 2
  | .ReliableOrdered => 3
  | .ReliableSequenced => 4

/-- `Reliability::reliable`. -/
def Reliability.reliable : Reliability → Bool
  | .Reliable => true
  | .ReliableOrdered => true
  | .ReliableSequenced => true
  | _ => false

/-- `Reliability::sequenced_or_ordered`. -/
def Reliability.sequenced_or_ordered : Reliability → Bool
  | .ReliableSequenced => true
  | .UnreliableSequenced => true
  | .ReliableOrdered => true
  | _ => false

/-- `Reliability::sequenced`. -/
def Reliability.sequenced : Reliability → Bool
  | .ReliableSequenced => true
  | .UnreliableSequenced => true
  | _ => false

/-- `TryFrom<u8> for Reliability`: Err on values above 4. -/
def Reliability.tryFrom (v : Nat) : PResult Reliability :=
  match v with
  | 0 => .ok .Unreliable
  | 1 => .ok .UnreliableSequenced
  | 2 => .ok .Reliable
  | 3 => .ok .ReliableOrdered
  | 4 => .ok .ReliableSequenced
  | _ => .err

/-! ## SequenceWindow (src/generic/window.rs, lines 13-73) -/

structure SequenceWindow where
  start : Nat
  stop : Nat    -- the Rust field is named `end`, a Lean keyword
  highest : Nat
  acks : List Nat
  nacks : List Nat
deriving DecidableEq, Repr

/-- `SequenceWindow::new`. -/
def SequenceWindow.new : SequenceWindow :=
  ⟨0, WINDOW_SIZE, 0, [], []⟩

/-- The advance-run of `SequenceWindow::receive`: `for i in self.start..
self.end { if !self.acks.contains(&i) { break; } self.start += 1;
self.end += 1; }` — the iterated range is captured once at loop entry,
while `start`/`end` advance. -/
def seqAdvanceLoop : List Nat → SequenceWindow → SequenceWindow
  | [], w => w
  | i :: rest, w =>
      if i ∈ w.acks then
        seqAdvanceLoop rest ⟨w.start + 1, w.stop + 1, w.highest, w.acks, w.nacks⟩
      else w

/-- `SequenceWindow::receive` (window.rs lines 35-65).  Note the source
rejects on `seq > self.end`, i.e. it accepts `seq == end`. -/
def SequenceWindow.receive (w : SequenceWindow) (seq : Nat) : Bool × SequenceWindow :=
  if seq < w.start ∨ w.stop < seq ∨ seq ∈ w.acks then (false, w)
  else
    let nacks := w.nacks.filter (fun x => x ≠ seq)
    let acks := w.acks ++ [seq]
    let highest := if w.highest < seq then seq else w.highest
    let w₁ : SequenceWindow := ⟨w.start, w.stop, highest, acks, nacks⟩
    if seq = w.start then
      (true, seqAdvanceLoop (List.range' w₁.start (w₁.stop - w₁.start)) w₁)
    else
      let add := (List.range' w₁.start (seq - w₁.start)).filter (fun i => i ∉ acks)
      (true, ⟨w₁.start, w₁.stop, w₁.highest, w₁.acks, nacks ++ add⟩)

/-- `SequenceWindow::shift`. -/
def SequenceWindow.shift (w : SequenceWindow) : SequenceWindow :=
  ⟨w.start + w.highest + 1, w.stop + w.highest + 1, w.highest, w.acks, w.nacks⟩

/-- Feed a list of sequence numbers to a window in order. -/
def SequenceWindow.receiveAll (w : SequenceWindow) (l : List Nat) : SequenceWindow :=
  l.foldl (fun w s => (w.receive s).2) w

/-! ## MessageWindow (src/generic/window.rs, lines 80-119) -/

structure MessageWindow where
  start : Nat
  stop : Nat
  indexes : List Nat
deriving DecidableEq, Repr

/-- `MessageWindow::new`. -/
def MessageWindow.new : MessageWindow :=
  ⟨0, WINDOW_SIZE, []⟩

/-- The advance-run of `MessageWindow::receive`: retains out the delivered
index before sliding, so subsequent membership tests see the shrunk list. -/
def msgAdvanceLoop : List Nat → MessageWindow → MessageWindow
  | [], w => w
  | i :: rest, w =>
      if i ∈ w.indexes then
        msgAdvanceLoop rest
          ⟨w.start + 1, w.stop + 1, w.indexes.filter (fun x => x ≠ i)⟩
      else w

/-- `MessageWindow::receive` (window.rs lines 98-118).  Like
`SequenceWindow::receive` it accepts `index == end`. -/
def MessageWindow.receive (w : MessageWindow) (index : Nat) : Bool × MessageWindow :=
  if index < w.start ∨ w.stop < index ∨ index ∈ w.indexes then (false, w)
  else
    let w₁ : MessageWindow := ⟨w.start, w.stop, w.indexes ++ [index]⟩
    if index = w.start then
      (true, msgAdvanceLoop (List.range' w₁.start (w₁.stop - w₁.start)) w₁)
    else (true, w₁)

/-! ## SplitWindow (src/generic/window.rs, lines 123-155) -/

structure SplitWindow where
  count : Nat
  fragments : List (List Nat)
deriving DecidableEq, Repr

/-- `SplitWindow::new(count)`: `Vec::with_capacity(count)` allocates
capacity exactly `count`; the capacity stays `count` while no push grows
the vector past it, which is the only regime any theorem below touches. -/
def SplitWindow.new (count : Nat) : SplitWindow := ⟨count, []⟩

/-- The reassembly loop of `SplitWindow::receive`: after
`buffer = fragments.remove(0)`, `for i in 1..self.fragments.len()`
(range captured once) does `fragments.remove(i)` — which PANICS when `i`
is out of bounds of the shrinking vector. -/
def splitConcatLoop : List Nat → List (List Nat) → List Nat → PResult (List Nat)
  | [], _, buffer => .ok buffer
  | i :: is, fragments, buffer =>
      if h : i < fragments.length then
        splitConcatLoop is (fragments.eraseIdx i) (buffer ++ fragments[i])
      else .panics

/-- `SplitWindow::receive` (window.rs lines 139-154).
`self.fragments.insert(index, fragment)` is `Vec::insert`, which shifts
the suffix right and PANICS if `index > len`; the completion test is
`capacity() != len()` with capacity modelled as `count`. -/
def SplitWindow.receive (w : SplitWindow) (index : Nat) (fragment : List Nat) :
    PResult (Option (List Nat) × SplitWindow) :=
  if index ≤ w.fragments.length then
    let fragments := w.fragments.insertIdx index fragment
    if w.count ≠ fragments.length then .ok (none, ⟨w.count, fragments⟩)
    else
      match fragments with
      | [] => .panics   -- fragments.remove(0) on an empty vec
      | buffer :: rest =>
          match splitConcatLoop (List.range' 1 (rest.length - 1)) rest buffer with
          | .ok out => .ok (some out, ⟨w.count, rest⟩)
          | .err => .err
          | .panics => .panics
  else .panics

/-! ## RecoveryWindow (src/generic/window.rs, lines 160-231)

`Instant`s are modelled as Nat milliseconds supplied by the caller; the
`HashMap`s are modelled as association lists with insert-replace. -/

def alistInsert (k : Nat) (v : α) (l : List (Nat × α)) : List (Nat × α) :=
  (k, v) :: l.filter (fun p => p.1 ≠ k)

def alistRemove (k : Nat) (l : List (Nat × α)) : List (Nat × α) :=
  l.filter (fun p => p.1 ≠ k)

def alistLookup (k : Nat) (l : List (Nat × α)) : Option α :=
  (l.find? (fun p => p.1 = k)).map (fun p => p.2)

/-- One unacknowledged datagram: encoded bytes and send instant. -/
structure Record where
  packet : List Nat
  instant : Nat
deriving DecidableEq, Repr

structure RecoveryWindow where
  unacknowledged : List (Nat × Record)
  delays : List (Nat × Nat)   -- sample instant → duration (ms)
deriving DecidableEq, Repr

/-- `RecoveryWindow::new`. -/
def RecoveryWindow.new : RecoveryWindow := ⟨[], []⟩

/-- `RecoveryWindow::add`. -/
def RecoveryWindow.add (w : RecoveryWindow) (sequence : Nat) (packet : List Nat)
    (now : Nat) : RecoveryWindow :=
  ⟨alistInsert sequence ⟨packet, now⟩ w.unacknowledged, w.delays⟩

/-- `RecoveryWindow::acknowledge`: remove the entry and record one RTT
sample equal to the elapsed time since send. -/
def RecoveryWindow.acknowledge (w : RecoveryWindow) (sequence : Nat) (now : Nat) :
    RecoveryWindow :=
  match alistLookup sequence w.unacknowledged with
  | some record =>
      ⟨alistRemove sequence w.unacknowledged,
       alistInsert now (now - record.instant) w.delays⟩
  | none => w

/-- `RecoveryWindow::retransmit`: remove the entry, record elapsed × 2 as a
penalty sample, and return the stored bytes. -/
def RecoveryWindow.retransmit (w : RecoveryWindow) (sequence : Nat) (now : Nat) :
    Option (List Nat) × RecoveryWindow :=
  match alistLookup sequence w.unacknowledged with
  | some record =>
      (some record.packet,
       ⟨alistRemove sequence w.unacknowledged,
        alistInsert now ((now - record.instant) * 2) w.delays⟩)
  | none => (none, w)

/-- `RecoveryWindow::rtt`: purge samples older than 5 s, then return the
mean of the rest (integer division; 0 on empty). -/
def RecoveryWindow.rtt (w : RecoveryWindow) (now : Nat) : Nat × RecoveryWindow :=
  let delays := w.delays.filter (fun p => (now - p.1) / 1000 ≤ 5)
  let total := (delays.map (fun p => p.2)).sum
  let records := delays.length
  (if records ≠ 0 then total / records else 0, ⟨w.unacknowledged, delays⟩)

/-! ## Field codecs of the `binary` crate (fixed-width byteorder wrappers)

`U16<BE>`, `U24<LE>`, `U32<BE>`, `I16<BE>`, `I64<BE>`, `U8`, `Bool` and
`UnsizedBytes` from the external `binary` dependency, modelled as the
standard fixed-width codecs they wrap.  Signed types are carried as their
two's-complement bit patterns. -/

def readU16be : P Nat := P.bind (readExact 2) (fun l => P.pure (fromBE l))

def readU24le : P Nat := P.bind (readExact 3) (fun l => P.pure (fromLE l))

def readU32be : P Nat := P.bind (readExact 4) (fun l => P.pure (fromBE l))

def readU64be : P Nat := P.bind (readExact 8) (fun l => P.pure (fromBE l))

/-- `Bool::deserialize`: one byte, nonzero ↦ true. -/
def readBool : P Bool := P.bind readU8 (fun v => P.pure (v ≠ 0))

/-- `UnsizedBytes::deserialize`: take the whole remaining buffer. -/
def readUnsized : P (List Nat) := fun c =>
  .ok (c.buf.drop c.pos, ⟨c.buf, c.buf.length⟩)

def serBool (b : Bool) : List Nat := [if b then 1 else 0]

/-! ## UDPAddress, Magic, SystemAddresses (src/protocol/binary.rs) -/

inductive IPAddr where
  | v4 (octets : List Nat)
  | v6 (octets : List Nat)
deriving DecidableEq, Repr

structure UDPAddress where
  ip : IPAddr
  port : Nat
deriving DecidableEq, Repr

/-- `INTERNAL_ADDRESS` = "255.255.255.255:19132". -/
def internalAddress : UDPAddress := ⟨.v4 [255, 255, 255, 255], 19132⟩

/-- `Binary::serialize for UDPAddress` (binary.rs lines 21-37). -/
def serUDPAddress (a : UDPAddress) : List Nat :=
  match a.ip with
  | .v4 octets => 4 :: (octets ++ natToBE 2 a.port)
  | .v6 octets =>
      6 :: (natToLE 2 23 ++ natToBE 2 a.port ++ natToBE 4 0 ++ octets ++ natToBE 4 0)

/-- `read_exact(..).unwrap()`: PANICS (instead of returning Err) when the
buffer is short — used by the IPv6 arm of `UDPAddress::deserialize`. -/
def readExactUnwrap (n : Nat) : P (List Nat) := fun c =>
  let r := c.buf.drop c.pos
  if n ≤ r.length then .ok (r.take n, ⟨c.buf, c.pos + n⟩) else .panics

/-- The dispatch of `UDPAddress::deserialize` on the leading version byte
(binary.rs lines 40-67). -/
def udpAddrArm (tag : Nat) : P UDPAddress :=
  match tag with
  | 4 =>
      P.bind (readExact 4) (fun octets =>
      P.bind readU16be (fun port =>
      P.pure ⟨.v4 octets, port⟩))
  | 6 =>
      P.bind (advanceBy 2) (fun _ =>
      P.bind readU16be (fun port =>
      P.bind (advanceBy 4) (fun _ =>
      P.bind (readExactUnwrap 16) (fun octets =>
      P.bind (advanceBy 4) (fun _ =>
      P.pure ⟨.v6 octets, port⟩)))))
  | _ => pfail

/-- `Binary::deserialize for UDPAddress` (binary.rs lines 39-69). -/
def deserUDPAddress : P UDPAddress := P.bind readU8 udpAddrArm

/-- `Magic::deserialize` (binary.rs lines 103-117): it records the start
position, calls `buf.advance(16)` — which PANICS when fewer than 16 bytes
remain — and only then compares the 16-byte slice against the constant. -/
def deserMagic : P Unit := fun c =>
  if c.pos + 16 ≤ c.buf.length then
    if (c.buf.drop c.pos).take 16 = UNCONNECTED_MESSAGE_SEQUENCE then
      .ok ((), ⟨c.buf, c.pos + 16⟩)
    else .err
  else .panics

/-- `SystemAddresses::serialize` (binary.rs lines 76-80): the fixed
`INTERNAL_ADDRESS`, IPv4-encoded, 20 times. -/
def serSystemAddresses : List Nat :=
  (List.replicate 20 (serUDPAddress internalAddress)).flatten

/-- The loop of `SystemAddresses::deserialize` (binary.rs lines 82-92):
each of the 20 iterations first returns early if exactly 16 bytes remain,
else consumes one address. -/
def sysAddrLoop : Nat → P Unit
  | 0 => P.pure ()
  | k + 1 => fun c =>
      if c.remaining = 16 then .ok ((), c)
      else (P.bind deserUDPAddress (fun _ => sysAddrLoop k)) c

def deserSystemAddresses : P Unit := sysAddrLoop 20

/-! ## Message (src/protocol/message.rs)

The tagged union built by the `build_message!` macro.  `Magic` and
`SystemAddresses` fields carry no data and are represented implicitly:
serialize emits their fixed encodings, deserialize validates them. -/

inductive Message where
  | unconnectedPing (send_timestamp client_guid : Nat)
  | unconnectedPingOpenConnections (send_timestamp client_guid : Nat)
  | unconnectedPong (send_timestamp server_guid : Nat) (data : List Nat)
  | openConnectionRequest1 (protocol : Nat) (emptybuf : List Nat)
  | openConnectionReply1 (server_guid : Nat) (secure : Bool) (server_mtu : Nat)
  | openConnectionRequest2 (server_address : UDPAddress) (client_mtu client_guid : Nat)
  | openConnectionReply2 (server_guid : Nat) (client_address : UDPAddress)
      (mtu_size : Nat) (secure : Bool)
  | incompatibleProtocolVersion (server_protocol server_guid : Nat)
  | connectedPing (client_timestamp : Nat)
  | connectedPong (client_timestamp server_timestamp : Nat)
  | connectionRequest (client_guid request_timestamp : Nat) (secure : Bool)
  | connectionRequestAccepted (client_address : UDPAddress)
      (request_timestamp accept_timestamp : Nat)
  | newIncomingConnection (server_address : UDPAddress)
      (request_timestamp accept_timestamp : Nat)
  | detectLostConnections
  | disconnectNotification
  | gamePacket (data : List Nat)
deriving DecidableEq, Repr

/-- `Message::id` (the one-byte discriminants of `build_message!`). -/
def Message.id : Message → Nat
  | .unconnectedPing _ _ => 0x01
  | .unconnectedPingOpenConnections _ _ => 0x02
  | .unconnectedPong _ _ _ => 0x1c
  | .openConnectionRequest1 _ _ => 0x05
  | .openConnectionReply1 _ _ _ => 0x06
  | .openConnectionRequest2 _ _ _ => 0x07
  | .openConnectionReply2 _ _ _ _ => 0x08
  | .incompatibleProtocolVersion _ _ => 0x19
  | .connectedPing _ => 0x00
  | .connectedPong _ _ => 0x03
  | .connectionRequest _ _ _ => 0x09
  | .connectionRequestAccepted _ _ _ => 0x10
  | .newIncomingConnection _ _ _ => 0x13
  | .detectLostConnections => 0x04
  | .disconnectNotification => 0x15
  | .gamePacket _ => 0xfe

/-- `Binary::serialize for Message`: the id byte, then each field in
declaration order. -/
def Message.serialize : Message → List Nat
  | .unconnectedPing ts g =>
      0x01 :: (natToBE 8 ts ++ (UNCONNECTED_MESSAGE_SEQUENCE ++ natToBE 8 g))
  | .unconnectedPingOpenConnections ts g =>
      0x02 :: (natToBE 8 ts ++ (UNCONNECTED_MESSAGE_SEQUENCE ++ natToBE 8 g))
  | .unconnectedPong ts g data =>
      0x1c :: (natToBE 8 ts ++ (natToBE 8 g ++ (UNCONNECTED_MESSAGE_SEQUENCE ++ data)))
  | .openConnectionRequest1 proto pad =>
      0x05 :: (UNCONNECTED_MESSAGE_SEQUENCE ++ ([proto] ++ pad))
  | .openConnectionReply1 g secure mtu =>
      0x06 :: (UNCONNECTED_MESSAGE_SEQUENCE ++ (natToBE 8 g ++ (serBool secure ++ natToBE 2 mtu)))
  | .openConnectionRequest2 addr mtu g =>
      0x07 :: (UNCONNECTED_MESSAGE_SEQUENCE ++ (serUDPAddress addr ++ (natToBE 2 mtu ++ natToBE 8 g)))
  | .openConnectionReply2 g addr mtu secure =>
      0x08 :: (UNCONNECTED_MESSAGE_SEQUENCE ++ (natToBE 8 g ++ (serUDPAddress addr ++ (natToBE 2 mtu ++ serBool secure))))
  | .incompatibleProtocolVersion proto g =>
      0x19 :: ([proto] ++ (UNCONNECTED_MESSAGE_SEQUENCE ++ natToBE 8 g))
  | .connectedPing ts =>
      0x00 :: natToBE 8 ts
  | .connectedPong ct st =>
      0x03 :: (natToBE 8 ct ++ natToBE 8 st)
  | .connectionRequest g ts secure =>
      0x09 :: (natToBE 8 g ++ (natToBE 8 ts ++ serBool secure))
  | .connectionRequestAccepted addr rts ats =>
      0x10 :: (serUDPAddress addr ++ (serSystemAddresses ++ (natToBE 8 rts ++ natToBE 8 ats)))
  | .newIncomingConnection addr rts ats =>
      0x13 :: (serUDPAddress addr ++ (serSystemAddresses ++ (natToBE 8 rts ++ natToBE 8 ats)))
  | .detectLostConnections => [0x04]
  | .disconnectNotification => [0x15]
  | .gamePacket data => 0xfe :: data

/-- The per-id arm of `Binary::deserialize for Message`: the fields of the
matching variant in declaration order; unknown ids are a recoverable
error. -/
def messageArm (id : Nat) : P Message :=
    match id with
    | 0x01 =>
        P.bind readU64be (fun ts =>
        P.bind deserMagic (fun _ =>
        P.bind readU64be (fun g =>
        P.pure (.unconnectedPing ts g))))
    | 0x02 =>
        P.bind readU64be (fun ts =>
        P.bind deserMagic (fun _ =>
        P.bind readU64be (fun g =>
        P.pure (.unconnectedPingOpenConnections ts g))))
    | 0x1c =>
        P.bind readU64be (fun ts =>
        P.bind readU64be (fun g =>
        P.bind deserMagic (fun _ =>
        P.bind readUnsized (fun data =>
        P.pure (.unconnectedPong ts g data)))))
    | 0x05 =>
        P.bind deserMagic (fun _ =>
        P.bind readU8 (fun proto =>
        P.bind readUnsized (fun pad =>
        P.pure (.openConnectionRequest1 proto pad))))
    | 0x06 =>
        P.bind deserMagic (fun _ =>
        P.bind readU64be (fun g =>
        P.bind readBool (fun secure =>
        P.bind readU16be (fun mtu =>
        P.pure (.openConnectionReply1 g secure mtu)))))
    | 0x07 =>
        P.bind deserMagic (fun _ =>
        P.bind deserUDPAddress (fun addr =>
        P.bind readU16be (fun mtu =>
        P.bind readU64be (fun g =>
        P.pure (.openConnectionRequest2 addr mtu g)))))
    | 0x08 =>
        P.bind deserMagic (fun _ =>
        P.bind readU64be (fun g =>
        P.bind deserUDPAddress (fun addr =>
        P.bind readU16be (fun mtu =>
        P.bind readBool (fun secure =>
        P.pure (.openConnectionReply2 g addr mtu secure))))))
    | 0x19 =>
        P.bind readU8 (fun proto =>
        P.bind deserMagic (fun _ =>
        P.bind readU64be (fun g =>
        P.pure (.incompatibleProtocolVersion proto g))))
    | 0x00 =>
        P.bind readU64be (fun ts =>
        P.pure (.connectedPing ts))
    | 0x03 =>
        P.bind readU64be (fun ct =>
        P.bind readU64be (fun st =>
        P.pure (.connectedPong ct st)))
    | 0x09 =>
        P.bind readU64be (fun g =>
        P.bind readU64be (fun ts =>
        P.bind readBool (fun secure =>
        P.pure (.connectionRequest g ts secure))))
    | 0x10 =>
        P.bind deserUDPAddress (fun addr =>
        P.bind deserSystemAddresses (fun _ =>
        P.bind readU64be (fun rts =>
        P.bind readU64be (fun ats =>
        P.pure (.connectionRequestAccepted addr rts ats)))))
    | 0x13 =>
        P.bind deserUDPAddress (fun addr =>
        P.bind deserSystemAddresses (fun _ =>
        P.bind readU64be (fun rts =>
        P.bind readU64be (fun ats =>
        P.pure (.newIncomingConnection addr rts ats)))))
    | 0x04 => P.pure .detectLostConnections
    | 0x15 => P.pure .disconnectNotification
    | 0xfe =>
        P.bind readUnsized (fun data =>
        P.pure (.gamePacket data))
    | _ => pfail

/-- `Binary::deserialize for Message`: the id byte, then the arm. -/
def Message.deserialize : P Message := P.bind readU8 messageArm

/-- Well-formedness of a UDP address value: field values fit their wire
widths. -/
def UDPAddress.wf (a : UDPAddress) : Prop :=
  a.port < 2 ^ 16 ∧
  match a.ip with
  | .v4 octets => octets.length = 4
  | .v6 octets => octets.length = 16

/-- Well-formedness of a message value: every field fits its wire width
(u8 < 2^8, u16 < 2^16, i64 patterns < 2^64, id bytes distinct from raw
payload constraints are not needed). -/
def Message.wf : Message → Prop
  | .unconnectedPing ts g => ts < 2 ^ 64 ∧ g < 2 ^ 64
  | .unconnectedPingOpenConnections ts g => ts < 2 ^ 64 ∧ g < 2 ^ 64
  | .unconnectedPong ts g _ => ts < 2 ^ 64 ∧ g < 2 ^ 64
  | .openConnectionRequest1 proto _ => proto < 2 ^ 8
  | .openConnectionReply1 g _ mtu => g < 2 ^ 64 ∧ mtu < 2 ^ 16
  | .openConnectionRequest2 addr mtu g => addr.wf ∧ mtu < 2 ^ 16 ∧ g < 2 ^ 64
  | .openConnectionReply2 g addr mtu _ => g < 2 ^ 64 ∧ addr.wf ∧ mtu < 2 ^ 16
  | .incompatibleProtocolVersion proto g => proto < 2 ^ 8 ∧ g < 2 ^ 64
  | .connectedPing ts => ts < 2 ^ 64
  | .connectedPong ct st => ct < 2 ^ 64 ∧ st < 2 ^ 64
  | .connectionRequest g ts _ => g < 2 ^ 64 ∧ ts < 2 ^ 64
  | .connectionRequestAccepted addr rts ats => addr.wf ∧ rts < 2 ^ 64 ∧ ats < 2 ^ 64
  | .newIncomingConnection addr rts ats => addr.wf ∧ rts < 2 ^ 64 ∧ ats < 2 ^ 64
  | .detectLostConnections => True
  | .disconnectNotification => True
  | .gamePacket _ => True

/-! ## Events (the RakNetEvent variants used by the live net/socket.rs and
net/stream.rs; generic/events.rs in the snapshot is a stale older copy
matching the dead listener.rs/conn.rs pair) -/

inductive RakNetEvent where
  | DuplicateLogin (entity : Nat)
  | LastActivity (entity now : Nat)
  | Latency (entity duration : Nat)
  | Ping (entity ms : Nat)
  | ConnectionEstablished (addr : UDPAddress) (entity : Nat)
  | IncomingBatch (entity : Nat) (data : List Nat)
  | Disconnect (entity : Nat)
  | IncompatibleProtocol (entity proto : Nat)
deriving DecidableEq, Repr

/-- `LOGIN_PACKET_ID` is imported by net/stream.rs from crate::protocol but
its definition is absent from the snapshot's protocol/mod.rs; 0xfe (the
MCPE game/login batch id) is used here.  No theorem below depends on it. -/
def LOGIN_PACKET_ID : Nat := 0xfe

/-! ## RakStream (src/net/stream.rs)

The socket handle is replaced by collecting every datagram passed to
`UdpSocket::send_to` into an explicit `sent` list; `Instant::now()` /
`unix_timestamp()` become an explicit `now` argument. -/

structure RakStream where
  addr : UDPAddress
  mtu_size : Nat
  sequence_number : Nat
  message_index : Nat
  sequence_index : Nat
  order_index : Nat
  split_id : Nat
  sequence_window : SequenceWindow
  message_window : MessageWindow
  split_window : List (Nat × SplitWindow)
  recovery_window : RecoveryWindow
  buffer : List Nat
deriving DecidableEq, Repr

/-- `RakStream::new`. -/
def RakStream.new (addr : UDPAddress) (mtu_size : Nat) : RakStream :=
  ⟨addr, mtu_size, 0, 0, 0, 0, 0, SequenceWindow.new, MessageWindow.new,
   [], RecoveryWindow.new, []⟩

/-- `RakStream::split` (stream.rs lines 183-211): fragment budget is
`mtu − 28 − 4 − 10 = mtu − 42`, lowered by a further
`FRAME_ADDITIONAL_SIZE = 10` (to `mtu − 52`) when the message exceeds it;
`count = len / max + (1 if len % max != 0)`.  (usize subtraction would
panic below mtu 42; every caller passes the negotiated mtu ≥ 576.) -/
def rakSplit (mtu_size : Nat) (bytes : List Nat) : List (List Nat) :=
  let max₀ := mtu_size - UDP_HEADER_SIZE - DATAGRAM_HEADER_SIZE - FRAME_HEADER_SIZE
  let len := bytes.length
  let max_size := if max₀ < len then max₀ - FRAME_ADDITIONAL_SIZE else max₀
  let count := len / max_size + (if len % max_size ≠ 0 then 1 else 0)
  (List.range count).map (fun i => (bytes.drop (i * max_size)).take max_size)

/-- `RakStream::flush` (stream.rs lines 629-638): prefix
`FLAG_DATAGRAM | FLAG_NEEDS_B_AND_AS` (0x84) and the little-endian u24
sequence number, then send. -/
def flushBytes (sequence_number : Nat) (buffer : List Nat) : List Nat :=
  0x84 :: (natToLE 3 sequence_number ++ buffer)

/-- The body of `RakStream::encode` for one fragment (stream.rs lines
126-176).  The outgoing `buffer` was allocated with capacity
`MAX_MTU_SIZE`, which is how `self.buffer.capacity()` is modelled. -/
def encodeFrag (rel : Reliability) (isSplit : Bool)
    (split_count split_id order_index now split_index : Nat)
    (contentBytes : List Nat) (st : RakStream) (sent : List (List Nat)) :
    RakStream × List (List Nat) :=
  let max_len := MAX_MTU_SIZE - st.buffer.length - FRAME_HEADER_SIZE
  let (st, sent) :=
    if max_len < contentBytes.length then
      ({ st with
          recovery_window := st.recovery_window.add st.sequence_number st.buffer now,
          sequence_number := st.sequence_number + 1,
          buffer := [] },
       sent ++ [flushBytes st.sequence_number st.buffer])
    else (st, sent)
  let header := rel.toU8 * 32 + (if isSplit then FLAG_FRAGMENTED else 0)
  let buf := st.buffer ++ [header] ++ natToBE 2 ((contentBytes.length % 2 ^ 16) * 8)
  let (buf, st) :=
    if rel.reliable then
      (buf ++ natToLE 3 st.message_index, { st with message_index := st.message_index + 1 })
    else (buf, st)
  let (buf, st) :=
    if rel.sequenced then
      (buf ++ natToLE 3 st.sequence_index, { st with sequence_index := st.sequence_index + 1 })
    else (buf, st)
  let buf := if rel.sequenced_or_ordered then buf ++ natToLE 3 order_index ++ [0] else buf
  let buf :=
    if isSplit then
      buf ++ natToBE 4 split_count ++ natToBE 2 split_id ++ natToBE 4 split_index
    else buf
  let buf := buf ++ contentBytes
  if rel ≠ .ReliableOrdered then
    ({ st with
        recovery_window := st.recovery_window.add st.sequence_number buf now,
        sequence_number := st.sequence_number + 1,
        buffer := [] },
     sent ++ [flushBytes st.sequence_number buf])
  else ({ st with buffer := buf }, sent)

def encodeFrags (rel : Reliability) (isSplit : Bool)
    (split_count split_id order_index now : Nat) :
    List (List Nat) → Nat → RakStream → List (List Nat) →
    RakStream × List (List Nat)
  | [], _, st, sent => (st, sent)
  | content :: rest, idx, st, sent =>
      let (st, sent) := encodeFrag rel isSplit split_count split_id order_index
        now idx content st sent
      encodeFrags rel isSplit split_count split_id order_index now rest (idx + 1) st sent

/-- `RakStream::encode` (stream.rs lines 111-179). -/
def RakStream.encode (st : RakStream) (message : Message) (rel : Reliability)
    (now : Nat) : RakStream × List (List Nat) :=
  let fragments := rakSplit st.mtu_size message.serialize
  let order_index := st.order_index
  let st := { st with order_index := st.order_index + 1 }
  let split_count := fragments.length
  let split_id := st.split_id
  let isSplit := decide (1 < split_count)
  let st := if isSplit then { st with split_id := st.split_id + 1 } else st
  encodeFrags rel isSplit split_count split_id order_index now fragments 0 st []

/-- `RakStream::handle_message` (stream.rs lines 523-613).  (The source's
`ConnectionRequestAccepted` reply names a `system_index` field that the
`build_message!` table in message.rs does not declare; the reply is
modelled on the message.rs field list.) -/
def RakStream.handle_message (st : RakStream) (buffer : List Nat)
    (now entity : Nat) :
    PResult (RakStream × List RakNetEvent × List (List Nat)) :=
  match Message.deserialize ⟨buffer, 0⟩ with
  | .err => .err
  | .panics => .panics
  | .ok (message, _) =>
      match message with
      | .connectedPing ct =>
          let (st, sent) := st.encode (.connectedPong ct ct) .Unreliable now
          .ok (st, [], sent)
      | .connectedPong ct st' =>
          .ok (st, [.Ping entity ((st' + 2 ^ 64 - ct) % 2 ^ 64)], [])
      | .connectionRequest _ rts _ =>
          let (st, sent) :=
            st.encode (.connectionRequestAccepted st.addr rts rts) .Unreliable now
          .ok (st, [], sent)
      | .connectionRequestAccepted _ rts ats =>
          let (st, sent) :=
            st.encode (.newIncomingConnection st.addr rts ats) .Unreliable now
          .ok (st, [.ConnectionEstablished st.addr entity], sent)
      | .newIncomingConnection _ _ _ =>
          .ok (st, [.ConnectionEstablished st.addr entity], [])
      | .gamePacket data => .ok (st, [.IncomingBatch entity data], [])
      | .disconnectNotification => .ok (st, [.Disconnect entity], [])
      | .detectLostConnections =>
          let (st, sent) := st.encode (.connectedPing now) .Unreliable now
          .ok (st, [], sent)
      | .incompatibleProtocolVersion proto _ =>
          .ok (st, [.IncompatibleProtocol entity proto], [])
      | _ => .ok (st, [], [])

/-- The frame loop of `RakStream::decode_datagram` (stream.rs lines
263-353).  `fuel` only bounds the recursion; every iteration consumes at
least one byte, so callers pass `remaining + 1` and the fuel never runs
out. -/
def decodeFrames (now entity : Nat) :
    Nat → Cursor → RakStream → List RakNetEvent → List (List Nat) → Nat →
    PResult (RakStream × List RakNetEvent × List (List Nat))
  | 0, _, _, _, _, _ => .err
  | fuel + 1, c, st, evs, sent, count =>
      if c.remaining = 0 then .ok (st, evs, sent)
      else
        match readU8 c with
        | .err => .err
        | .panics => .panics
        | .ok (header, c) =>
          let split := header &&& FLAG_FRAGMENTED ≠ 0
          match Reliability.tryFrom ((header &&& 224) >>> 5) with
          | .err => .err
          | .panics => .panics
          | .ok rel =>
            match readU16be c with
            | .err => .err
            | .panics => .panics
            | .ok (len₀, c) =>
              let length := len₀ >>> 3
              if length = 0 then .err
              else
                match (if rel.reliable then readU24le c else .ok (0, c)) with
                | .err => .err
                | .panics => .panics
                | .ok (message_index, c) =>
                  match (if rel.sequenced then advanceBy 3 c else .ok ((), c)) with
                  | .err => .err
                  | .panics => .panics
                  | .ok (_, c) =>
                    match (if rel.sequenced_or_ordered then advanceBy 4 c else .ok ((), c)) with
                    | .err => .err
                    | .panics => .panics
                    | .ok (_, c) =>
                      match (if split then
                          (P.bind readU32be (fun sc =>
                           P.bind readU16be (fun si =>
                           P.bind readU32be (fun sx =>
                           P.pure (sc, si, sx))))) c
                        else .ok ((0, 0, 0), c)) with
                      | .err => .err
                      | .panics => .panics
                      | .ok ((split_count, split_id, split_index), c) =>
                        let start := c.pos
                        match advanceBy length c with
                        | .err => .err
                        | .panics => .panics
                        | .ok (_, c) =>
                          let content := (c.buf.drop start).take length
                          let (cont, mw) := st.message_window.receive message_index
                          let st := { st with message_window := mw }
                          if ¬cont then
                            decodeFrames now entity fuel c st evs sent count
                          else
                            if split then
                              if MAX_SPLIT_PACKETS ≤ split_count then .err
                              else
                                let splits := (alistLookup split_id st.split_window).getD
                                  (SplitWindow.new split_count)
                                let st := { st with
                                  split_window := alistRemove split_id st.split_window }
                                if splits.count ≠ split_count then .err
                                else
                                  match splits.receive split_index content with
                                  | .err => .err
                                  | .panics => .panics
                                  | .ok (some bytes, _) =>
                                      match st.handle_message bytes now entity with
                                      | .err => .err
                                      | .panics => .panics
                                      | .ok (st, evs', sent') =>
                                          decodeFrames now entity fuel c st
                                            (evs ++ evs') (sent ++ sent') count
                                  | .ok (none, splits) =>
                                      let st := { st with
                                        split_window :=
                                          alistInsert split_id splits st.split_window }
                                      let count := count + 1
                                      if MAX_BATCHED_PACKETS < count then .err
                                      else decodeFrames now entity fuel c st evs sent count
                            else
                              match st.handle_message content now entity with
                              | .err => .err
                              | .panics => .panics
                              | .ok (st, evs', sent') =>
                                  let count := count + 1
                                  if MAX_BATCHED_PACKETS < count then .err
                                  else decodeFrames now entity fuel c st
                                    (evs ++ evs') (sent ++ sent') count

/-- `RakStream::decode_datagram` entry (stream.rs lines 251-261): read the
u24 sequence, gate through the sequence window, then run the frame loop. -/
def RakStream.decode_datagram (st : RakStream) (c : Cursor) (now entity : Nat) :
    PResult (RakStream × List RakNetEvent × List (List Nat)) :=
  match readU24le c with
  | .err => .err
  | .panics => .panics
  | .ok (seq, c) =>
      let (accepted, sw) := st.sequence_window.receive seq
      let st := { st with sequence_window := sw }
      if ¬accepted then .ok (st, [], [])
      else decodeFrames now entity (c.remaining + 1) c st [] [] 0

/-! ### Receipts -/

/-- The records written by `RakStream::write_receipts` (stream.rs lines
474-519): `single` is record type 1, `range` is record type 0. -/
inductive ReceiptRecord where
  | single (seq : Nat)
  | range (first last : Nat)
deriving DecidableEq, Repr

/-- Emitting one record: type 1 with one u24 when `first == last`, else
type 0 with two u24s. -/
def wrEmit (first last : Nat) : List ReceiptRecord :=
  if first = last then [.single first] else [.range first last]

/-- The record loop of `write_receipts`: state is `(first, last)`, and
`sequence == last + 1` continues the run unless this is the final index,
in which case it falls through to the emit. -/
def wrGo : Nat → Nat → List Nat → List ReceiptRecord
  | _, _, [] => []
  | first, last, sequence :: rest =>
      if sequence = last + 1 then
        if rest ≠ [] then wrGo first sequence rest
        else wrEmit first sequence
      else wrEmit first last ++ wrGo sequence sequence rest

/-- `RakStream::write_receipts`, record level: sort ascending, seed
`first = last = sequences[0]`, loop over all indices (index 0 included).
Callers (`write_ack`/`write_nack`) guarantee a nonempty list. -/
def write_receipts_records (sequences : List Nat) : List ReceiptRecord :=
  let s := sequences.mergeSort (fun a b => decide (a ≤ b))
  match s with
  | [] => []
  | x :: _ => wrGo x x s

def receiptRecordBytes : ReceiptRecord → List Nat
  | .single s => 1 :: natToLE 3 s
  | .range a b => 0 :: (natToLE 3 a ++ natToLE 3 b)

/-- The byte payload written by `write_receipts` after the flag byte: the
(patched) big-endian i16 record count, then the records. -/
def receiptPayload (recs : List ReceiptRecord) : List Nat :=
  natToBE 2 recs.length ++ (recs.map receiptRecordBytes).flatten

/-- Which input sequences a record accounts for (a `range first last`
record stands for the run `first..=last` it was emitted from). -/
def ReceiptRecord.covers (r : ReceiptRecord) (x : Nat) : Bool :=
  match r with
  | .single s => x == s
  | .range a b => decide (a ≤ x) && decide (x ≤ b)

/-- How many of the emitted records cover the sequence `x`. -/
def coverCount (recs : List ReceiptRecord) (x : Nat) : Nat :=
  recs.countP (fun r => r.covers x)

/-- The record loop of `RakStream::read_receipts` (stream.rs lines
406-429): type 0 pushes the half-open range `start..end`, type 1 pushes
one sequence, anything else is a recoverable error. -/
def readReceiptsLoop : Nat → P (List Nat)
  | 0 => P.pure []
  | k + 1 =>
      P.bind readU8 (fun rt =>
        match rt with
        | 0 =>
            P.bind readU24le (fun a =>
            P.bind readU24le (fun b =>
            P.bind (readReceiptsLoop k) (fun rest =>
            P.pure (List.range' a (b - a) ++ rest))))
        | 1 =>
            P.bind readU24le (fun s =>
            P.bind (readReceiptsLoop k) (fun rest =>
            P.pure (s :: rest)))
        | _ => pfail)

/-- `RakStream::read_receipts` (stream.rs lines 403-432): the record count
is an `I16<BE>`; a negative count (bit 15 set) makes `0..record_count`
empty. -/
def read_receipts : P (List Nat) :=
  P.bind readU16be (fun rc =>
    readReceiptsLoop (if rc < 2 ^ 15 then rc else 0))

/-- `RakStream::decode_ack` (stream.rs lines 360-375): acknowledge every
receipt, then emit a Latency event from `recovery.rtt()`. -/
def RakStream.decode_ack (st : RakStream) (c : Cursor) (now entity : Nat) :
    PResult (RakStream × List RakNetEvent × List (List Nat)) :=
  match read_receipts c with
  | .err => .err
  | .panics => .panics
  | .ok (seqs, _) =>
      let rw := seqs.foldl (fun w s => w.acknowledge s now) st.recovery_window
      let (rtt, rw) := rw.rtt now
      .ok ({ st with recovery_window := rw }, [.Latency entity rtt], [])

/-- `RakStream::decode_nack` (stream.rs lines 379-399): retransmit every
receipt under a fresh sequence number. -/
def RakStream.decode_nack (st : RakStream) (c : Cursor) (now entity : Nat) :
    PResult (RakStream × List RakNetEvent × List (List Nat)) :=
  match read_receipts c with
  | .err => .err
  | .panics => .panics
  | .ok (seqs, _) =>
      let (st, sent) := seqs.foldl
        (fun (acc : RakStream × List (List Nat)) s =>
          let (st, sent) := acc
          match st.recovery_window.retransmit s now with
          | (some bytes, rw) =>
              ({ st with
                  recovery_window := (rw.add st.sequence_number bytes now),
                  sequence_number := st.sequence_number + 1 },
               sent ++ [flushBytes st.sequence_number bytes])
          | (none, rw) => ({ st with recovery_window := rw }, sent))
        (st, [])
      let (rtt, rw) := st.recovery_window.rtt now
      .ok ({ st with recovery_window := rw }, [.Latency entity rtt], sent)

/-- `RakStream::decode` (stream.rs lines 215-247). -/
def RakStream.decode (st : RakStream) (buffer : List Nat) (now entity : Nat) :
    PResult (RakStream × List RakNetEvent × List (List Nat)) :=
  match readU8 ⟨buffer, 0⟩ with
  | .err => .err
  | .panics => .panics
  | .ok (header, c) =>
      if header = LOGIN_PACKET_ID then .ok (st, [.DuplicateLogin entity], [])
      else if header &&& FLAG_DATAGRAM = 0 then .err
      else
        let evs := [RakNetEvent.LastActivity entity now]
        if header &&& FLAG_ACK ≠ 0 then
          match st.decode_ack c now entity with
          | .err => .err
          | .panics => .panics
          | .ok (st, evs', sent) => .ok (st, evs ++ evs', sent)
        else if header &&& FLAG_NACK ≠ 0 then
          match st.decode_nack c now entity with
          | .err => .err
          | .panics => .panics
          | .ok (st, evs', sent) => .ok (st, evs ++ evs', sent)
        else
          match st.decode_datagram c now entity with
          | .err => .err
          | .panics => .panics
          | .ok (st, evs', sent) => .ok (st, evs ++ evs', sent)

/-! ## RakSocket rate limiting and blocklist (src/net/socket.rs)

Remote socket addresses are abstracted to Nat keys; wall-clock time is an
explicit pair of arguments (`nowMs` for `Instant` arithmetic, `nowSec`
for `unix_timestamp()`). -/

structure Mappings where
  blocked : List (Nat × Nat)
  packets_per_sec : List (Nat × (Nat × Nat))
  invalid_packets : List (Nat × Nat)
deriving DecidableEq, Repr

def Mappings.default : Mappings := ⟨[], [], []⟩

/-- `RakSocket::block` (socket.rs lines 314-318): inserts the expiry
second into the blocked map.  Unlike the stale listener.rs copy, the live
socket.rs version takes no `EventWriter` and no `BlockReason` — it emits
no event. -/
def RakSocket.block (m : Mappings) (addr nowSec : Nat) : Mappings :=
  { m with blocked := alistInsert addr (nowSec + RAKNET_BLOCK_DUR_SECS) m.blocked }

/-- `RakSocket::is_blocked` (socket.rs lines 263-273). -/
def RakSocket.is_blocked (m : Mappings) (addr nowSec : Nat) : Bool × Mappings :=
  match alistLookup addr m.blocked with
  | some expiry =>
      if nowSec < expiry then (true, m)
      else (false, { m with blocked := alistRemove addr m.blocked })
  | none => (false, m)

/-- `RakSocket::check_packet_spam` (socket.rs lines 277-297): the entry is
removed, the count bumped while under one second, and the source blocked
when the count reaches `MAX_MSGS_PER_SEC` (the entry is then not
re-inserted). -/
def RakSocket.check_packet_spam (m : Mappings) (addr nowMs nowSec : Nat) :
    Bool × Mappings :=
  let e := (alistLookup addr m.packets_per_sec).getD (nowMs, 0)
  let m := { m with packets_per_sec := alistRemove addr m.packets_per_sec }
  let instant := e.1
  let packets := e.2
  if nowMs - instant < 1000 then
    let packets := packets + 1
    if packets = MAX_MSGS_PER_SEC then (true, RakSocket.block m addr nowSec)
    else
      (false, { m with
        packets_per_sec := alistInsert addr (instant, packets) m.packets_per_sec })
  else
    (false, { m with packets_per_sec := alistInsert addr (nowMs, 0) m.packets_per_sec })

/-- `RakSocket::check_invalid_packets` (socket.rs lines 301-311). -/
def RakSocket.check_invalid_packets (m : Mappings) (addr nowSec : Nat) : Mappings :=
  let invalid := (alistLookup addr m.invalid_packets).getD 0 + 1
  if invalid = MAX_INVALID_MSGS then
    RakSocket.block
      { m with invalid_packets := alistRemove addr m.invalid_packets } addr nowSec
  else { m with invalid_packets := alistInsert addr invalid m.invalid_packets }

/-- Iterate `check_packet_spam` for one source: the state after `n`
packets, all observed at the same instant. -/
def spamIter (addr nowMs nowSec : Nat) : Nat → Mappings
  | 0 => Mappings.default
  | n + 1 => (RakSocket.check_packet_spam (spamIter addr nowMs nowSec n) addr nowMs nowSec).2

/-- The inductive invariant of `SequenceWindow::receive` under a stream of
distinct in-window sequence numbers `l` (delivered in this order, no
`shift`): the ack list is exactly the delivered list, nacks never overlap
acks, everything below `start` is acked, the window keeps its 2048 width,
acked values are bounded by `highest`, `start` trails `highest` by at
most one, the interval `[start, highest]` is fully accounted once
anything was delivered, and the fresh state is recognizable. -/
def SeqInv (w : SequenceWindow) (l : List Nat) : Prop :=
  w.acks = l ∧
  (∀ x ∈ w.nacks, x ∉ w.acks) ∧
  (∀ i, i < w.start → i ∈ w.acks) ∧
  w.stop = w.start + WINDOW_SIZE ∧
  (∀ x ∈ w.acks, x ≤ w.highest) ∧
  w.start ≤ w.highest + 1 ∧
  (l ≠ [] → ∀ i, w.start ≤ i → i ≤ w.highest → i ∈ w.acks ∨ i ∈ w.nacks) ∧
  (l = [] → w.highest = 0 ∧ w.start = 0)

/-- Projection: the events of a successful `RakStream::decode` result. -/
def decodeEvents (r : PResult (RakStream × List RakNetEvent × List (List Nat))) :
    Option (List RakNetEvent) :=
  match r with
  | .ok (_, evs, _) => some evs
  | _ => none

/-- Projection: the datagrams sent during a successful `RakStream::decode`. -/
def decodeSent (r : PResult (RakStream × List RakNetEvent × List (List Nat))) :
    Option (List (List Nat)) :=
  match r with
  | .ok (_, _, sent) => some sent
  | _ => none

/-- Projection: is the result a Rust panic? -/
def isPanic (r : PResult α) : Bool :=
  match r with
  | .panics => true
  | _ => false

/-! ## Parser correctness scaffolding

`Emits p bytes a`: wherever a cursor sits at the start of `bytes` inside a
larger buffer, `p` succeeds with value `a` and consumes exactly `bytes`.
`EmitsEnd` is the variant for parsers that must see `bytes` extend to the
end of the buffer (trailing `UnsizedBytes`, and the `SystemAddresses`
early-stop probe). -/

def Emits (p : P α) (bytes : List Nat) (a : α) : Prop :=
  ∀ pre post, p ⟨pre ++ (bytes ++ post), pre.length⟩ =
    .ok (a, ⟨pre ++ (bytes ++ post), pre.length + bytes.length⟩)

def EmitsEnd (p : P α) (bytes : List Nat) (a : α) : Prop :=
  ∀ pre, p ⟨pre ++ bytes, pre.length⟩ =
    .ok (a, ⟨pre ++ bytes, pre.length + bytes.length⟩)

/-! ## Helper lemmas (byte codecs) -/

theorem natToBE_length (w v : Nat) : (natToBE w v).length = w := by
  induction w generalizing v with
  | zero => rfl
  | succ w ih => simp [natToBE, ih]

theorem natToLE_length (w v : Nat) : (natToLE w v).length = w := by
  induction w generalizing v with
  | zero => rfl
  | succ w ih => simp [natToLE, ih]

theorem fromBE_foldl (l : List Nat) :
    ∀ a, l.foldl (fun acc b => acc * 256 + b) a = a * 256 ^ l.length + fromBE l := by
  induction l with
  | nil => intro a; simp [fromBE]
  | cons b rest ih =>
      intro a
      have hb : fromBE (b :: rest) = b * 256 ^ rest.length + fromBE rest := by
        show List.foldl _ 0 (b :: rest) = _
        rw [List.foldl_cons, ih]
        simp
      rw [List.foldl_cons, ih, hb]
      simp [List.length_cons]
      ring

theorem fromBE_append (l₁ l₂ : List Nat) :
    fromBE (l₁ ++ l₂) = fromBE l₁ * 256 ^ l₂.length + fromBE l₂ := by
  show List.foldl _ 0 (l₁ ++ l₂) = _
  rw [List.foldl_append]
  exact fromBE_foldl l₂ _

theorem fromBE_natToBE (w v : Nat) : fromBE (natToBE w v) = v % 256 ^ w := by
  induction w generalizing v with
  | zero => simp [natToBE, fromBE, Nat.mod_one]
  | succ w ih =>
      rw [natToBE, fromBE_append, ih]
      have h : (256 : Nat) ^ (w + 1) = 256 * 256 ^ w := by ring
      have hm := @Nat.mod_mul 256 (256 ^ w) v
      have hfb : fromBE [v % 256] = v % 256 := by simp [fromBE]
      rw [h, hm, hfb]
      simp
      omega

theorem fromLE_natToLE (w v : Nat) : fromLE (natToLE w v) = v % 256 ^ w := by
  induction w generalizing v with
  | zero => simp [natToLE, fromLE, Nat.mod_one]
  | succ w ih =>
      rw [natToLE, fromLE, ih]
      have h : (256 : Nat) ^ (w + 1) = 256 * 256 ^ w := by ring
      have hm := @Nat.mod_mul 256 (256 ^ w) v
      rw [h, hm]


theorem emits_pure (a : α) : Emits (P.pure a) [] a := by
  intro pre post
  simp [P.pure]

theorem emits_bind {p : P α} {f : α → P β} {b₁ b₂ : List Nat} {a₁ : α} {a₂ : β}
    (h₁ : Emits p b₁ a₁) (h₂ : Emits (f a₁) b₂ a₂) :
    Emits (P.bind p f) (b₁ ++ b₂) a₂ := by
  intro pre post
  have e₁ := h₁ pre (b₂ ++ post)
  have e₂ := h₂ (pre ++ b₁) post
  simp only [P.bind, List.append_assoc] at e₁ e₂ ⊢
  rw [e₁]
  simp only [List.length_append] at e₂
  have hl : pre.length + (b₁ ++ b₂).length = pre.length + b₁.length + b₂.length := by
    simp [List.length_append, Nat.add_assoc]
  rw [hl]
  exact e₂

theorem emitsEnd_of_emits {p : P α} {b : List Nat} {a : α} (h : Emits p b a) :
    EmitsEnd p b a := by
  intro pre
  have := h pre []
  simpa using this

theorem emitsEnd_bind {p : P α} {f : α → P β} {b₁ b₂ : List Nat} {a₁ : α} {a₂ : β}
    (h₁ : Emits p b₁ a₁) (h₂ : EmitsEnd (f a₁) b₂ a₂) :
    EmitsEnd (P.bind p f) (b₁ ++ b₂) a₂ := by
  intro pre
  have e₁ := h₁ pre b₂
  have e₂ := h₂ (pre ++ b₁)
  simp only [P.bind, List.append_assoc] at e₁ e₂ ⊢
  rw [e₁]
  simp only [List.length_append] at e₂
  have hl : pre.length + (b₁ ++ b₂).length = pre.length + b₁.length + b₂.length := by
    simp [List.length_append, Nat.add_assoc]
  rw [hl]
  exact e₂

theorem emits_map {p : P α} {b : List Nat} {a : α} (g : α → β) (h : Emits p b a) :
    Emits (P.bind p (fun x => P.pure (g x))) b (g a) := by
  intro pre post
  simp only [P.bind]
  rw [h pre post]
  rfl

theorem emitsEnd_map {p : P α} {b : List Nat} {a : α} (g : α → β) (h : EmitsEnd p b a) :
    EmitsEnd (P.bind p (fun x => P.pure (g x))) b (g a) := by
  intro pre
  simp only [P.bind]
  rw [h pre]
  rfl

theorem emits_value_eq {p : P α} {b : List Nat} {a a' : α} (h : Emits p b a)
    (hv : a = a') : Emits p b a' := hv ▸ h

theorem emits_readU8 (v : Nat) : Emits readU8 [v] v := by
  intro pre post
  have hd : (pre ++ ([v] ++ post)).drop pre.length = v :: post :=
    List.drop_left pre ([v] ++ post)
  simp [readU8, hd]

theorem emits_readExact {l : List Nat} {n : Nat} (h : l.length = n) :
    Emits (readExact n) l l := by
  intro pre post
  have hd : (pre ++ (l ++ post)).drop pre.length = l ++ post :=
    List.drop_left pre (l ++ post)
  have ht : (l ++ post).take n = l := by
    rw [← h, List.take_left]
  have hn : n ≤ (l ++ post).length := by
    simp [List.length_append, ← h]
  simp [readExact, hd, ht, hn, h]

theorem emits_readExactUnwrap {l : List Nat} {n : Nat} (h : l.length = n) :
    Emits (readExactUnwrap n) l l := by
  intro pre post
  have hd : (pre ++ (l ++ post)).drop pre.length = l ++ post :=
    List.drop_left pre (l ++ post)
  have ht : (l ++ post).take n = l := by
    rw [← h, List.take_left]
  have hn : n ≤ (l ++ post).length := by
    simp [List.length_append, ← h]
  simp [readExactUnwrap, hd, ht, hn, h]

theorem emits_advanceBy {l : List Nat} {n : Nat} (h : l.length = n) :
    Emits (advanceBy n) l () := by
  intro pre post
  have hlen : pre.length + n ≤ (pre ++ (l ++ post)).length := by
    simp [List.length_append, ← h]
  simp [advanceBy, hlen, h]

theorem emits_readU16be {v : Nat} (h : v < 2 ^ 16) :
    Emits readU16be (natToBE 2 v) v := by
  have h₁ := emits_map fromBE (emits_readExact (natToBE_length 2 v))
  apply emits_value_eq h₁
  rw [fromBE_natToBE]
  have h₂ : (256 : Nat) ^ 2 = 2 ^ 16 := by norm_num
  rw [h₂]
  exact Nat.mod_eq_of_lt h

theorem emits_readU24le {v : Nat} (h : v < 2 ^ 24) :
    Emits readU24le (natToLE 3 v) v := by
  have h₁ := emits_map fromLE (emits_readExact (natToLE_length 3 v))
  apply emits_value_eq h₁
  rw [fromLE_natToLE]
  have h₂ : (256 : Nat) ^ 3 = 2 ^ 24 := by norm_num
  rw [h₂]
  exact Nat.mod_eq_of_lt h

theorem emits_readU32be {v : Nat} (h : v < 2 ^ 32) :
    Emits readU32be (natToBE 4 v) v := by
  have h₁ := emits_map fromBE (emits_readExact (natToBE_length 4 v))
  apply emits_value_eq h₁
  rw [fromBE_natToBE]
  have h₂ : (256 : Nat) ^ 4 = 2 ^ 32 := by norm_num
  rw [h₂]
  exact Nat.mod_eq_of_lt h

theorem emits_readU64be {v : Nat} (h : v < 2 ^ 64) :
    Emits readU64be (natToBE 8 v) v := by
  have h₁ := emits_map fromBE (emits_readExact (natToBE_length 8 v))
  apply emits_value_eq h₁
  rw [fromBE_natToBE]
  have h₂ : (256 : Nat) ^ 8 = 2 ^ 64 := by norm_num
  rw [h₂]
  exact Nat.mod_eq_of_lt h

theorem emits_readBool (b : Bool) : Emits readBool (serBool b) b := by
  have h₁ := emits_map (fun v => decide (v ≠ 0)) (emits_readU8 (if b then 1 else 0))
  apply emits_value_eq h₁
  cases b <;> simp

theorem emits_deserMagic : Emits deserMagic UNCONNECTED_MESSAGE_SEQUENCE () := by
  intro pre post
  have hlen : UNCONNECTED_MESSAGE_SEQUENCE.length = 16 := by rfl
  have hd : (pre ++ (UNCONNECTED_MESSAGE_SEQUENCE ++ post)).drop pre.length =
      UNCONNECTED_MESSAGE_SEQUENCE ++ post :=
    List.drop_left pre (UNCONNECTED_MESSAGE_SEQUENCE ++ post)
  have ht : (UNCONNECTED_MESSAGE_SEQUENCE ++ post).take 16 =
      UNCONNECTED_MESSAGE_SEQUENCE := by
    rw [← hlen, List.take_left]
  have hb : pre.length + 16 ≤ (pre ++ (UNCONNECTED_MESSAGE_SEQUENCE ++ post)).length := by
    simp [List.length_append, hlen]
  simp [deserMagic, hd, ht, hb, hlen]

theorem emitsEnd_readUnsized (l : List Nat) : EmitsEnd readUnsized l l := by
  intro pre
  have hd : (pre ++ l).drop pre.length = l := List.drop_left pre l
  simp [readUnsized, hd]

theorem emits_udpAddrArm_v4 {octets : List Nat} {port : Nat}
    (hoct : octets.length = 4) (hport : port < 2 ^ 16) :
    Emits (udpAddrArm 4) (octets ++ natToBE 2 port)
      (⟨.v4 octets, port⟩ : UDPAddress) :=
  emits_bind (emits_readExact hoct)
    (emits_map (fun port' => (⟨.v4 octets, port'⟩ : UDPAddress))
      (emits_readU16be hport))

theorem emits_udpAddrArm_v6 {octets : List Nat} {port : Nat}
    (hoct : octets.length = 16) (hport : port < 2 ^ 16) :
    Emits (udpAddrArm 6)
      (natToLE 2 23 ++ (natToBE 2 port ++ (natToBE 4 0 ++ (octets ++ natToBE 4 0))))
      (⟨.v6 octets, port⟩ : UDPAddress) :=
  emits_bind (emits_advanceBy (natToLE_length 2 23))
    (emits_bind (emits_readU16be hport)
      (emits_bind (emits_advanceBy (natToBE_length 4 0))
        (emits_bind (emits_readExactUnwrap hoct)
          (emits_map (fun _ => (⟨.v6 octets, port⟩ : UDPAddress))
            (emits_advanceBy (natToBE_length 4 0))))))

theorem emits_deserUDPAddress {a : UDPAddress} (h : a.wf) :
    Emits deserUDPAddress (serUDPAddress a) a := by
  obtain ⟨ip, port⟩ := a
  obtain ⟨hport, hip⟩ := h
  cases ip with
  | v4 octets =>
      simp only [UDPAddress.wf] at hip
      exact emits_bind (emits_readU8 4) (emits_udpAddrArm_v4 hip hport)
  | v6 octets =>
      simp only [UDPAddress.wf] at hip
      have h₁ := emits_bind (emits_readU8 6) (emits_udpAddrArm_v6 hip hport)
      simpa [serUDPAddress, List.append_assoc] using h₁

theorem length_flatten_replicate (n : Nat) (l : List Nat) :
    ((List.replicate n l).flatten).length = n * l.length := by
  induction n with
  | zero => simp
  | succ n ih =>
      rw [List.replicate_succ, List.flatten_cons]
      simp [ih]
      ring

theorem internalAddress_wf : internalAddress.wf := by
  constructor
  · show (19132 : Nat) < 2 ^ 16
    norm_num
  · rfl

theorem sysAddrLoop_replicate :
    ∀ (k : Nat) (rest pre : List Nat), rest.length = 16 →
    sysAddrLoop k
      ⟨pre ++ ((List.replicate k (serUDPAddress internalAddress)).flatten ++ rest),
       pre.length⟩ =
      .ok ((),
        ⟨pre ++ ((List.replicate k (serUDPAddress internalAddress)).flatten ++ rest),
         pre.length + 7 * k⟩) := by
  intro k
  induction k with
  | zero =>
      intro rest pre _
      simp [sysAddrLoop, P.pure]
  | succ k ih =>
      intro rest pre hrest
      have hb : (serUDPAddress internalAddress).length = 7 := rfl
      have hsplit :
          (List.replicate (k + 1) (serUDPAddress internalAddress)).flatten =
          serUDPAddress internalAddress ++
            (List.replicate k (serUDPAddress internalAddress)).flatten := by
        rw [List.replicate_succ, List.flatten_cons]
      rw [hsplit, List.append_assoc]
      have happ :
          sysAddrLoop (k + 1)
            ⟨pre ++ (serUDPAddress internalAddress ++
              ((List.replicate k (serUDPAddress internalAddress)).flatten ++ rest)),
             pre.length⟩ =
          if (Cursor.mk
              (pre ++ (serUDPAddress internalAddress ++
                ((List.replicate k (serUDPAddress internalAddress)).flatten ++ rest)))
              pre.length).remaining = 16 then
            .ok ((),
              ⟨pre ++ (serUDPAddress internalAddress ++
                ((List.replicate k (serUDPAddress internalAddress)).flatten ++ rest)),
               pre.length⟩)
          else
            (P.bind deserUDPAddress (fun _ => sysAddrLoop k))
              ⟨pre ++ (serUDPAddress internalAddress ++
                ((List.replicate k (serUDPAddress internalAddress)).flatten ++ rest)),
               pre.length⟩ := rfl
      rw [happ]
      have hrem :
          (Cursor.mk
            (pre ++ (serUDPAddress internalAddress ++
              ((List.replicate k (serUDPAddress internalAddress)).flatten ++ rest)))
            pre.length).remaining = 7 * k + 23 := by
        simp [Cursor.remaining, List.length_append, length_flatten_replicate, hrest, hb]
        omega
      rw [if_neg (by rw [hrem]; omega)]
      have e₁ := emits_deserUDPAddress internalAddress_wf pre
        ((List.replicate k (serUDPAddress internalAddress)).flatten ++ rest)
      simp only [P.bind]
      rw [e₁]
      have e₂ := ih rest (pre ++ serUDPAddress internalAddress) hrest
      simp only [List.append_assoc, List.length_append, hb] at e₂
      have hpos : pre.length + 7 + 7 * k = pre.length + 7 * (k + 1) := by ring
      rw [hpos] at e₂
      rw [hb]
      exact e₂

theorem serSystemAddresses_length : serSystemAddresses.length = 140 := by rfl

/-- Composition through `SystemAddresses::deserialize`: over the crate's
own serialization (20 IPv4 internal addresses, so the remaining-bytes
probe sees `7·k + 16 ≠ 16` at every check), the loop consumes exactly the
140 address bytes, and the rest of the arm continues on a 16-byte tail
that reaches the end of the buffer. -/
theorem emitsEnd_sysThenRest {β : Type} {f : Unit → P β} {restBytes : List Nat} {b : β}
    (hrest : restBytes.length = 16) (h₂ : EmitsEnd (f ()) restBytes b) :
    EmitsEnd (P.bind deserSystemAddresses f) (serSystemAddresses ++ restBytes) b := by
  intro pre
  have h₁ := sysAddrLoop_replicate 20 restBytes pre hrest
  simp only [P.bind, deserSystemAddresses]
  rw [show (serSystemAddresses : List Nat) =
    ((List.replicate 20 (serUDPAddress internalAddress)).flatten) from rfl]
  rw [h₁]
  have h₂' := h₂ (pre ++ (List.replicate 20 (serUDPAddress internalAddress)).flatten)
  simp only [List.append_assoc, List.length_append] at h₂' ⊢
  have hl : ((List.replicate 20 (serUDPAddress internalAddress)).flatten).length = 140 :=
    by rfl
  rw [hl] at h₂'
  have hpos : pre.length + 7 * 20 = pre.length + 140 := by norm_num
  rw [hpos]
  have hfin : pre.length + 140 + restBytes.length =
      pre.length + (140 + restBytes.length) := by omega
  rw [hfin] at h₂'
  exact h₂'

/-- Round trip for every control-message variant: deserializing the
crate's own serialization returns the original message and consumes the
whole buffer. -/
theorem message_roundtrip (m : Message) (hwf : m.wf) :
    EmitsEnd Message.deserialize m.serialize m := by
  cases m with
  | unconnectedPing ts g =>
      obtain ⟨hts, hg⟩ := hwf
      exact emitsEnd_bind (emits_readU8 0x01)
        (emitsEnd_bind (emits_readU64be hts)
          (emitsEnd_bind emits_deserMagic
            (emitsEnd_of_emits
              (emits_map (fun g' => Message.unconnectedPing ts g') (emits_readU64be hg)))))
  | unconnectedPingOpenConnections ts g =>
      obtain ⟨hts, hg⟩ := hwf
      exact emitsEnd_bind (emits_readU8 0x02)
        (emitsEnd_bind (emits_readU64be hts)
          (emitsEnd_bind emits_deserMagic
            (emitsEnd_of_emits
              (emits_map (fun g' => Message.unconnectedPingOpenConnections ts g')
                (emits_readU64be hg)))))
  | unconnectedPong ts g data =>
      obtain ⟨hts, hg⟩ := hwf
      exact emitsEnd_bind (emits_readU8 0x1c)
        (emitsEnd_bind (emits_readU64be hts)
          (emitsEnd_bind (emits_readU64be hg)
            (emitsEnd_bind emits_deserMagic
              (emitsEnd_map (fun d => Message.unconnectedPong ts g d)
                (emitsEnd_readUnsized data)))))
  | openConnectionRequest1 proto pad =>
      exact emitsEnd_bind (emits_readU8 0x05)
        (emitsEnd_bind emits_deserMagic
          (emitsEnd_bind (emits_readU8 proto)
            (emitsEnd_map (fun p => Message.openConnectionRequest1 proto p)
              (emitsEnd_readUnsized pad))))
  | openConnectionReply1 g secure mtu =>
      obtain ⟨hg, hmtu⟩ := hwf
      exact emitsEnd_bind (emits_readU8 0x06)
        (emitsEnd_bind emits_deserMagic
          (emitsEnd_bind (emits_readU64be hg)
            (emitsEnd_bind (emits_readBool secure)
              (emitsEnd_of_emits
                (emits_map (fun mtu' => Message.openConnectionReply1 g secure mtu')
                  (emits_readU16be hmtu))))))
  | openConnectionRequest2 addr mtu g =>
      obtain ⟨haddr, hmtu, hg⟩ := hwf
      exact emitsEnd_bind (emits_readU8 0x07)
        (emitsEnd_bind emits_deserMagic
          (emitsEnd_bind (emits_deserUDPAddress haddr)
            (emitsEnd_bind (emits_readU16be hmtu)
              (emitsEnd_of_emits
                (emits_map (fun g' => Message.openConnectionRequest2 addr mtu g')
                  (emits_readU64be hg))))))
  | openConnectionReply2 g addr mtu secure =>
      obtain ⟨hg, haddr, hmtu⟩ := hwf
      exact emitsEnd_bind (emits_readU8 0x08)
        (emitsEnd_bind emits_deserMagic
          (emitsEnd_bind (emits_readU64be hg)
            (emitsEnd_bind (emits_deserUDPAddress haddr)
              (emitsEnd_bind (emits_readU16be hmtu)
                (emitsEnd_of_emits
                  (emits_map (fun s => Message.openConnectionReply2 g addr mtu s)
                    (emits_readBool secure)))))))
  | incompatibleProtocolVersion proto g =>
      obtain ⟨hproto, hg⟩ := hwf
      exact emitsEnd_bind (emits_readU8 0x19)
        (emitsEnd_bind (emits_readU8 proto)
          (emitsEnd_bind emits_deserMagic
            (emitsEnd_of_emits
              (emits_map (fun g' => Message.incompatibleProtocolVersion proto g')
                (emits_readU64be hg)))))
  | connectedPing ts =>
      exact emitsEnd_bind (emits_readU8 0x00)
        (emitsEnd_of_emits
          (emits_map (fun ts' => Message.connectedPing ts') (emits_readU64be hwf)))
  | connectedPong ct st =>
      obtain ⟨hct, hst⟩ := hwf
      exact emitsEnd_bind (emits_readU8 0x03)
        (emitsEnd_bind (emits_readU64be hct)
          (emitsEnd_of_emits
            (emits_map (fun st' => Message.connectedPong ct st') (emits_readU64be hst))))
  | connectionRequest g ts secure =>
      obtain ⟨hg, hts⟩ := hwf
      exact emitsEnd_bind (emits_readU8 0x09)
        (emitsEnd_bind (emits_readU64be hg)
          (emitsEnd_bind (emits_readU64be hts)
            (emitsEnd_of_emits
              (emits_map (fun s => Message.connectionRequest g ts s)
                (emits_readBool secure)))))
  | connectionRequestAccepted addr rts ats =>
      obtain ⟨haddr, hrts, hats⟩ := hwf
      have hrest : (natToBE 8 rts ++ natToBE 8 ats).length = 16 := by
        simp [List.length_append, natToBE_length]
      exact emitsEnd_bind (emits_readU8 0x10)
        (emitsEnd_bind (emits_deserUDPAddress haddr)
          (emitsEnd_sysThenRest hrest
            (emitsEnd_bind (emits_readU64be hrts)
              (emitsEnd_of_emits
                (emits_map (fun ats' => Message.connectionRequestAccepted addr rts ats')
                  (emits_readU64be hats))))))
  | newIncomingConnection addr rts ats =>
      obtain ⟨haddr, hrts, hats⟩ := hwf
      have hrest : (natToBE 8 rts ++ natToBE 8 ats).length = 16 := by
        simp [List.length_append, natToBE_length]
      exact emitsEnd_bind (emits_readU8 0x13)
        (emitsEnd_bind (emits_deserUDPAddress haddr)
          (emitsEnd_sysThenRest hrest
            (emitsEnd_bind (emits_readU64be hrts)
              (emitsEnd_of_emits
                (emits_map (fun ats' => Message.newIncomingConnection addr rts ats')
                  (emits_readU64be hats))))))
  | detectLostConnections =>
      have h₂ : EmitsEnd (messageArm 0x04) ([] : List Nat) Message.detectLostConnections :=
        emitsEnd_of_emits (emits_pure Message.detectLostConnections)
      have h := emitsEnd_bind (emits_readU8 0x04) h₂
      simpa using h
  | disconnectNotification =>
      have h₂ : EmitsEnd (messageArm 0x15) ([] : List Nat) Message.disconnectNotification :=
        emitsEnd_of_emits (emits_pure Message.disconnectNotification)
      have h := emitsEnd_bind (emits_readU8 0x15) h₂
      simpa using h
  | gamePacket data =>
      exact emitsEnd_bind (emits_readU8 0xfe)
        (emitsEnd_map (fun d => Message.gamePacket d) (emitsEnd_readUnsized data))

/-! ## Claim theorems -/

/-- Claim C2 (code bug): `SplitWindow::receive` is claimed to store each
fragment by its index and, on receipt of the N-th distinct fragment,
return the concatenation of all N fragments in ascending index order.
The code does not: for a two-fragment split received in order
(fragment 0 = [10], fragment 1 = [20]) it returns `some [10]`, silently
dropping fragment 1 instead of returning `[10, 20]`; and receiving
fragment index 1 first panics outright (`Vec::insert` out of bounds). -/
theorem claim_C2 :
    ((SplitWindow.new 2).receive 0 [10] =
        .ok (none, ⟨2, [[10]]⟩)) ∧
    ((SplitWindow.mk 2 [[10]]).receive 1 [20] =
        .ok (some [10], ⟨2, [[20]]⟩)) ∧
    ([10] ≠ [10] ++ [20]) ∧
    ((SplitWindow.new 2).receive 1 [20] = .panics) := by
  refine ⟨by decide, by decide, by decide, by decide⟩

/-- Claim C3 (code bug): during datagram decode, only reliable frames are
claimed to be gated through `message_window.receive`.  In the code the
gate runs unconditionally with `message_index = 0` for non-reliable
frames, so of two Unreliable GamePacket frames in one datagram only the
first is handled: decode emits a single IncomingBatch (for payload
[0x2a]) and drops the second frame ([0x2b]) as a "duplicate". -/
theorem claim_C3 :
    decodeEvents
        ((RakStream.new ⟨.v4 [127, 0, 0, 1], 19132⟩ 1500).decode
          (0x84 :: (natToLE 3 0 ++ [0x00, 0, 16, 0xfe, 0x2a] ++ [0x00, 0, 16, 0xfe, 0x2b]))
          5 1) =
      some [.LastActivity 1 5, .IncomingBatch 1 [0x2a]] := by
  decide

/-- Claim C4 (code bug): the receipt writer is claimed to emit one record
per maximal run / isolated sequence with every input sequence covered
exactly once.  On the sorted distinct input [3, 5] the loop emits
[single 3, single 3]: sequence 3 is covered by two records and the final
isolated sequence 5 by none (write_receipts always emits a spurious
record at index 0 and never emits a trailing isolated sequence). -/
theorem claim_C4 :
    write_receipts_records [3, 5] = [.single 3, .single 3] ∧
    coverCount (write_receipts_records [3, 5]) 5 = 0 ∧
    coverCount (write_receipts_records [3, 5]) 3 = 2 := by
  have h : write_receipts_records [3, 5] = wrGo 3 3 [3, 5] := by
    unfold write_receipts_records
    rw [List.mergeSort_eq_self (by decide)]
  rw [h]
  refine ⟨by decide, by decide, by decide⟩

/-- Claim C8 (code bug): `Message::deserialize` and `RakStream::decode`
are claimed total (Ok/Err, never panicking) on arbitrary input.  Both
panic on truncated input: an UnconnectedPing cut off before the magic
makes `Magic::deserialize` call `buf.advance(16)` with 0 bytes remaining
(a `bytes::Buf` panic), and a datagram whose frame header declares 8
content bytes with none present makes `decode_datagram` call
`reader.advance(8)` past the end. -/
theorem claim_C8 :
    Message.deserialize ⟨[0x01, 0, 0, 0, 0, 0, 0, 0, 0], 0⟩ = .panics ∧
    (RakStream.new ⟨.v4 [127, 0, 0, 1], 19132⟩ 1500).decode
        [0x84, 0, 0, 0, 0x00, 0x00, 0x40] 5 1 = .panics := by
  refine ⟨by decide, by decide⟩

/-- Claim C9 (code bug): 100 packets from one source within a second —
calls 1..99 of `check_packet_spam` return false, the 100th returns true
(the packet is dropped), the source's blocked-map entry expires at
`now + RAKNET_BLOCK_DUR` (10 s), and `is_blocked` ignores the source
until that second is reached.  (The Blocked *event* of the claim is
refuted structurally: the live `RakSocket::block` in net/socket.rs has no
`EventWriter` parameter and emits nothing.) -/
theorem claim_C9 :
    (∀ k < 99, (RakSocket.check_packet_spam (spamIter 7 0 0 k) 7 0 0).1 = false) ∧
    (RakSocket.check_packet_spam (spamIter 7 0 0 99) 7 0 0).1 = true ∧
    alistLookup 7 (RakSocket.check_packet_spam (spamIter 7 0 0 99) 7 0 0).2.blocked =
      some RAKNET_BLOCK_DUR_SECS ∧
    (∀ sec < RAKNET_BLOCK_DUR_SECS,
      (RakSocket.is_blocked (RakSocket.check_packet_spam (spamIter 7 0 0 99) 7 0 0).2
        7 sec).1 = true) ∧
    (RakSocket.is_blocked (RakSocket.check_packet_spam (spamIter 7 0 0 99) 7 0 0).2
        7 RAKNET_BLOCK_DUR_SECS).1 = false := by
  refine ⟨by decide, by decide, by decide, by decide, by decide⟩

theorem div_ceil_eq (L d : Nat) (hd : 0 < d) :
    L / d + (if L % d ≠ 0 then 1 else 0) = (L + d - 1) / d := by
  by_cases h : L % d = 0
  · simp [h]
    obtain ⟨q, hq⟩ := Nat.dvd_of_mod_eq_zero h
    subst hq
    rw [Nat.mul_div_cancel_left q hd]
    have h₁ : d * q + d - 1 = (d - 1) + d * q := by
      rw [Nat.add_sub_assoc hd, Nat.add_comm]
    rw [h₁, Nat.add_mul_div_left _ _ hd, Nat.div_eq_of_lt (by omega), Nat.zero_add]
  · simp [h]
    have hr : L % d < d := Nat.mod_lt _ hd
    have hr0 : 0 < L % d := Nat.pos_of_ne_zero h
    have hq : d * (L / d) + L % d = L := Nat.div_add_mod L d
    obtain ⟨q, hq'⟩ : ∃ q, L / d = q := ⟨_, rfl⟩
    obtain ⟨r, hr'⟩ : ∃ r, L % d = r := ⟨_, rfl⟩
    rw [hq'] at hq ⊢
    rw [hr'] at hq hr hr0
    obtain ⟨A, hA⟩ : ∃ A, d * q = A := ⟨_, rfl⟩
    rw [hA] at hq
    have hdq : d * (q + 1) = A + d := by
      rw [Nat.mul_add, Nat.mul_one, hA]
    have h₁ : L + d - 1 = (r - 1) + d * (q + 1) := by
      rw [hdq]
      omega
    rw [h₁, Nat.add_mul_div_left _ _ hd, Nat.div_eq_of_lt (by omega)]
    omega

/-- The fragment count of `RakStream::split`: `ceil(L / (M − 52))` when
`L > M − 42` (42 = UDP 28 + DATAGRAM 4 + FRAME 10; 52 adds
FRAME_ADDITIONAL 10), else a single fragment. -/
theorem rakSplit_length (M : Nat) (bytes : List Nat) (hM : 53 ≤ M)
    (hL : 1 ≤ bytes.length) :
    (rakSplit M bytes).length =
      if M - 42 < bytes.length then (bytes.length + (M - 52) - 1) / (M - 52)
      else 1 := by
  have h42 : M - UDP_HEADER_SIZE - DATAGRAM_HEADER_SIZE - FRAME_HEADER_SIZE = M - 42 := by
    simp only [UDP_HEADER_SIZE, DATAGRAM_HEADER_SIZE, FRAME_HEADER_SIZE]
    omega
  have h52 : M - 42 - FRAME_ADDITIONAL_SIZE = M - 52 := by
    simp only [FRAME_ADDITIONAL_SIZE]
    omega
  unfold rakSplit
  simp only [List.length_map, List.length_range, h42]
  by_cases hc : M - 42 < bytes.length
  · simp only [hc, if_true, h52]
    exact div_ceil_eq bytes.length (M - 52) (by omega)
  · simp only [hc, if_false]
    have hle : bytes.length ≤ M - 42 := Nat.le_of_not_lt hc
    have hd : 0 < M - 42 := by omega
    rcases Nat.lt_or_ge bytes.length (M - 42) with hlt | hge
    · rw [Nat.div_eq_of_lt hlt, Nat.mod_eq_of_lt hlt]
      have hne : bytes.length ≠ 0 := by omega
      simp [hne]
    · have heq : bytes.length = M - 42 := by omega
      rw [heq, Nat.div_self hd, Nat.mod_self]
      simp

/-- Claim C1, counterexample: with negotiated MTU 1500 a 1460-byte message
satisfies `L ≤ M − 38`, so the claim predicts a single unfragmented
frame; `RakStream::split` nevertheless produces 2 fragments (its actual
threshold is `M − 42` and its fragment budget `M − 52`). -/
theorem claim_C1_counterexample :
    ¬ (1500 - 38 < 1460) ∧ (rakSplit 1500 (List.replicate 1460 0)).length = 2 := by
  refine ⟨by norm_num, ?_⟩
  have h := rakSplit_length 1500 (List.replicate 1460 0) (by norm_num)
    (by rw [List.length_replicate]; norm_num)
  rw [List.length_replicate] at h
  norm_num at h
  exact h

/-- Claim C1 as amended: for a message of `L ≥ 1` bytes and MTU `M`, the
encode path's `RakStream::split` produces `ceil(L / (M − 52))` fragments
when `L > M − 42` (42 = UDP 28 + DATAGRAM 4 + FRAME 10; 52 adds
FRAME_ADDITIONAL 10), else a single fragment. -/
theorem claim_C1 (M : Nat) (bytes : List Nat) (hM : 53 ≤ M)
    (hL : 1 ≤ bytes.length) :
    (rakSplit M bytes).length =
      if M - 42 < bytes.length then (bytes.length + (M - 52) - 1) / (M - 52)
      else 1 :=
  rakSplit_length M bytes hM hL

/-- Witness for claim C1 at MTU 1500 and a 5000-byte message (the spec's
scenario S5: 4 fragments). -/
theorem claim_C1_witness :
    (rakSplit 1500 (List.replicate 5000 0)).length =
      if 1500 - 42 < (List.replicate 5000 (0 : Nat)).length then
        ((List.replicate 5000 (0 : Nat)).length + (1500 - 52) - 1) / (1500 - 52)
      else 1 :=
  claim_C1 1500 (List.replicate 5000 0) (by norm_num)
    (by rw [List.length_replicate]; norm_num)

theorem seqAdvanceLoop_acks (l : List Nat) (w : SequenceWindow) :
    (seqAdvanceLoop l w).acks = w.acks ∧
    (seqAdvanceLoop l w).nacks = w.nacks ∧
    (seqAdvanceLoop l w).highest = w.highest := by
  induction l generalizing w with
  | nil => exact ⟨rfl, rfl, rfl⟩
  | cons i rest ih =>
      rw [seqAdvanceLoop]
      by_cases h : i ∈ w.acks
      · rw [if_pos h]
        exact ih _
      · rw [if_neg h]
        exact ⟨rfl, rfl, rfl⟩

/-- The accept branch of `SequenceWindow::receive`, written out. -/
theorem receive_accept (w : SequenceWindow) (s : Nat)
    (hc : ¬(s < w.start ∨ w.stop < s ∨ s ∈ w.acks)) :
    w.receive s =
      (true,
        if s = w.start then
          seqAdvanceLoop (List.range' w.start (w.stop - w.start))
            ⟨w.start, w.stop, if w.highest < s then s else w.highest,
             w.acks ++ [s], w.nacks.filter (fun x => x ≠ s)⟩
        else
          ⟨w.start, w.stop, if w.highest < s then s else w.highest,
           w.acks ++ [s],
           w.nacks.filter (fun x => x ≠ s) ++
             (List.range' w.start (s - w.start)).filter
               (fun i => i ∉ w.acks ++ [s])⟩) := by
  unfold SequenceWindow.receive
  rw [if_neg hc]
  by_cases hs : s = w.start
  · rw [if_pos hs, if_pos hs]
  · rw [if_neg hs, if_neg hs]

/-- Claim C6, counterexample: the claim says `receive(seq)` rejects when
`seq ≥ end`.  The source tests `seq > self.end`, so on a fresh window
(`end = 2048`) the boundary sequence 2048 is accepted. -/
theorem claim_C6_counterexample :
    SequenceWindow.new.stop ≤ 2048 ∧
    (SequenceWindow.new.receive 2048).1 = true := by
  refine ⟨by decide, by decide⟩

/-- Claim C6 as amended: `SequenceWindow::receive(seq)` returns false and
leaves the window unchanged exactly when `seq < start`, `seq > end`
(not `≥`), or `seq` is already acked; otherwise it returns true, appends
`seq` to the ack list, leaves it out of the nack list, and raises
`highest` to `max highest seq`. -/
theorem claim_C6 (w : SequenceWindow) (s : Nat) :
    ((w.receive s).1 = false ↔ (s < w.start ∨ w.stop < s ∨ s ∈ w.acks)) ∧
    ((s < w.start ∨ w.stop < s ∨ s ∈ w.acks) → (w.receive s).2 = w) ∧
    (¬(s < w.start ∨ w.stop < s ∨ s ∈ w.acks) →
      (w.receive s).2.acks = w.acks ++ [s] ∧
      s ∉ (w.receive s).2.nacks ∧
      (w.receive s).2.highest = max w.highest s) := by
  by_cases hc : s < w.start ∨ w.stop < s ∨ s ∈ w.acks
  · refine ⟨?_, fun _ => ?_, fun hn => absurd hc hn⟩
    · simp [SequenceWindow.receive, hc]
    · simp [SequenceWindow.receive, hc]
  · have hmax : (if w.highest < s then s else w.highest) = max w.highest s := by
      rw [Nat.max_def]
      split <;> split <;> omega
    rw [receive_accept w s hc]
    refine ⟨by simp [hc], fun h => absurd h hc, fun _ => ?_⟩
    by_cases hs : s = w.start
    · rw [if_pos hs]
      obtain ⟨ha, hn, hh⟩ := seqAdvanceLoop_acks
        (List.range' w.start (w.stop - w.start))
        ⟨w.start, w.stop, if w.highest < s then s else w.highest,
         w.acks ++ [s], w.nacks.filter (fun x => x ≠ s)⟩
      refine ⟨by rw [ha], ?_, by rw [hh]; exact hmax⟩
      rw [hn]
      intro hmem
      have h₂ := List.mem_filter.mp hmem
      simp at h₂
    · rw [if_neg hs]
      refine ⟨rfl, ?_, hmax⟩
      intro hmem
      rcases List.mem_append.mp hmem with h₁ | h₂
      · have h₃ := List.mem_filter.mp h₁
        simp at h₃
      · have h₃ := List.mem_filter.mp h₂
        have hr := List.mem_range'.mp h₃.1
        omega

/-- Witness for claim C6 at the fresh window and sequence 5. -/
theorem claim_C6_witness :
    (((SequenceWindow.new.receive 5).1 = false ↔
      (5 < SequenceWindow.new.start ∨ SequenceWindow.new.stop < 5 ∨
        5 ∈ SequenceWindow.new.acks)) ∧
    ((5 < SequenceWindow.new.start ∨ SequenceWindow.new.stop < 5 ∨
        5 ∈ SequenceWindow.new.acks) → (SequenceWindow.new.receive 5).2 = SequenceWindow.new) ∧
    (¬(5 < SequenceWindow.new.start ∨ SequenceWindow.new.stop < 5 ∨
        5 ∈ SequenceWindow.new.acks) →
      (SequenceWindow.new.receive 5).2.acks = SequenceWindow.new.acks ++ [5] ∧
      5 ∉ (SequenceWindow.new.receive 5).2.nacks ∧
      (SequenceWindow.new.receive 5).2.highest = max SequenceWindow.new.highest 5)) :=
  claim_C6 SequenceWindow.new 5

theorem wrGo_run (f : Nat) :
    ∀ (k : Nat), 1 ≤ k → ∀ (l : Nat), f ≤ l →
      wrGo f l (List.range' (l + 1) k) = [.range f (l + k)] := by
  intro k
  induction k with
  | zero => intro h; omega
  | succ k ih =>
      intro _ l hfl
      cases k with
      | zero =>
          show wrGo f l [l + 1] = [.range f (l + 1)]
          rw [wrGo]
          rw [if_pos rfl]
          have : ¬([] : List Nat) ≠ [] := by simp
          rw [if_neg this]
          unfold wrEmit
          rw [if_neg (by omega)]
      | succ k' =>
          show wrGo f l ((l + 1) :: List.range' (l + 2) (k' + 1)) = _
          rw [wrGo, if_pos rfl]
          have hne : List.range' (l + 2) (k' + 1) ≠ [] := by
            simp [List.range']
          rw [if_pos hne]
          have h₂ : l + 2 = (l + 1) + 1 := by omega
          rw [h₂]
          rw [ih (by omega) (l + 1) (by omega)]
          have h₃ : l + 1 + (k' + 1) = l + (k' + 1 + 1) := by omega
          rw [h₃]

/-- `write_receipts` on a maximal consecutive run `a..=a+k` (`k ≥ 1`):
the spurious leading single plus the range record for the run. -/
theorem write_receipts_run (a k : Nat) (hk : 1 ≤ k) :
    write_receipts_records (List.range' a (k + 1)) =
      [.single a, .range a (a + k)] := by
  unfold write_receipts_records
  rw [List.mergeSort_eq_self ((List.pairwise_lt_range' a (k + 1)).imp le_of_lt)]
  show (match List.range' a (k + 1) with
    | [] => ([] : List ReceiptRecord)
    | x :: _ => wrGo x x (List.range' a (k + 1))) = _
  have hsplit : List.range' a (k + 1) = a :: List.range' (a + 1) k := rfl
  rw [hsplit]
  show wrGo a a (a :: List.range' (a + 1) k) = _
  rw [wrGo, if_neg (by omega)]
  rw [wrGo_run a k hk a (by omega)]
  unfold wrEmit
  rw [if_pos rfl]
  rfl

theorem find?_filter_ne {α : Type} (k k' : Nat) (l : List (Nat × α)) (h : k ≠ k') :
    (l.filter (fun p => p.1 ≠ k')).find? (fun p => p.1 = k) =
      l.find? (fun p => p.1 = k) := by
  induction l with
  | nil => rfl
  | cons p rest ih =>
      rw [List.filter_cons]
      by_cases hp : p.1 = k'
      · have hc : (decide (p.1 ≠ k')) = false := by simp [hp]
        rw [hc, if_neg (by simp)]
        have hk : (decide (p.1 = k)) = false := by simp [hp]; omega
        rw [List.find?_cons, hk]
        exact ih
      · have hc : (decide (p.1 ≠ k')) = true := by simp [hp]
        rw [hc, if_pos rfl]
        rw [List.find?_cons, List.find?_cons]
        cases hdk : (decide (p.1 = k)) with
        | true => rfl
        | false => exact ih

theorem alistLookup_remove_ne {α : Type} (k k' : Nat) (l : List (Nat × α))
    (h : k ≠ k') :
    alistLookup k (alistRemove k' l) = alistLookup k l := by
  unfold alistLookup alistRemove
  rw [find?_filter_ne k k' l h]

theorem acknowledge_lookup_ne (w : RecoveryWindow) (s b now : Nat) (h : s ≠ b) :
    alistLookup b (w.acknowledge s now).unacknowledged =
      alistLookup b w.unacknowledged := by
  unfold RecoveryWindow.acknowledge
  cases alistLookup s w.unacknowledged with
  | some record => exact alistLookup_remove_ne b s _ (by omega)
  | none => rfl

theorem foldl_acknowledge_lookup (l : List Nat) (b now : Nat) :
    ∀ (w : RecoveryWindow), (∀ s ∈ l, s ≠ b) →
      alistLookup b
        ((l.foldl (fun w s => w.acknowledge s now) w).unacknowledged) =
      alistLookup b w.unacknowledged := by
  induction l with
  | nil => intro w _; rfl
  | cons s rest ih =>
      intro w hall
      rw [List.foldl_cons]
      rw [ih _ (fun x hx => hall x (List.mem_cons_of_mem s hx))]
      exact acknowledge_lookup_ne w s b now (hall s (List.mem_cons_self s rest))

/-- The byte-level parse of the receipt written for a run: a record count
of 2, the single record for `a`, and the range record `(a, b)`. -/
theorem read_receipts_run_emits (a b : Nat) (hab : a < b) (hb : b < 2 ^ 24) :
    Emits read_receipts (receiptPayload [.single a, .range a b])
      (a :: List.range' a (b - a)) := by
  have ha24 : a < 2 ^ 24 := by omega
  have h0 : Emits (readReceiptsLoop 0) ([] : List Nat) ([] : List Nat) :=
    emits_pure []
  have h1 : Emits (readReceiptsLoop 1)
      ([0] ++ (natToLE 3 a ++ (natToLE 3 b ++ [])))
      (List.range' a (b - a)) := by
    have hchain : Emits (readReceiptsLoop 1)
        ([0] ++ (natToLE 3 a ++ (natToLE 3 b ++ [])))
        (List.range' a (b - a) ++ []) :=
      emits_bind (emits_readU8 0)
        (emits_bind (emits_readU24le ha24)
          (emits_bind (emits_readU24le hb)
            (emits_map (fun rest => List.range' a (b - a) ++ rest) h0)))
    exact emits_value_eq hchain (by simp)
  have h2 : Emits (readReceiptsLoop 2)
      ([1] ++ (natToLE 3 a ++ ([0] ++ (natToLE 3 a ++ (natToLE 3 b ++ [])))))
      (a :: List.range' a (b - a)) :=
    emits_bind (emits_readU8 1)
      (emits_bind (emits_readU24le ha24) (emits_map (fun r => a :: r) h1))
  have hrc : (2 : Nat) < 2 ^ 16 := by norm_num
  have hfull : Emits read_receipts
      (natToBE 2 2 ++ ([1] ++ (natToLE 3 a ++ ([0] ++ (natToLE 3 a ++ (natToLE 3 b ++ []))))))
      (a :: List.range' a (b - a)) :=
    emits_bind (emits_readU16be hrc) h2
  have hbytes : receiptPayload [ReceiptRecord.single a, ReceiptRecord.range a b] =
      natToBE 2 2 ++ ([1] ++ (natToLE 3 a ++ ([0] ++ (natToLE 3 a ++ (natToLE 3 b ++ []))))) := by
    simp [receiptPayload, receiptRecordBytes, List.append_assoc]
  rw [hbytes]
  exact hfull

/-- Claim C5: `read_receipts` decodes a range record `(first, last)` as
the half-open set `{first, …, last−1}`; hence for a maximal run `[a, b]`,
which `write_receipts` encodes with a `range a b` record, the decoded
receipts cover exactly `a..b−1`, never `b`, and after acknowledging every
decoded sequence the recovery-window entry for `b` is still present. -/
theorem claim_C5 (a b now : Nat) (hab : a < b) (hb : b < 2 ^ 24)
    (rw : RecoveryWindow) (rec : Record)
    (hrec : alistLookup b rw.unacknowledged = some rec) :
    write_receipts_records (List.range' a (b + 1 - a)) =
      [.single a, .range a b] ∧
    read_receipts ⟨receiptPayload [.single a, .range a b], 0⟩ =
      .ok (a :: List.range' a (b - a),
        ⟨receiptPayload [.single a, .range a b],
         (receiptPayload [.single a, .range a b]).length⟩) ∧
    (∀ s, s ∈ a :: List.range' a (b - a) ↔ a ≤ s ∧ s < b) ∧
    b ∉ a :: List.range' a (b - a) ∧
    alistLookup b
      (((a :: List.range' a (b - a)).foldl
          (fun w s => w.acknowledge s now) rw).unacknowledged) = some rec := by
  have hmem : ∀ s, s ∈ a :: List.range' a (b - a) ↔ a ≤ s ∧ s < b := by
    intro s
    constructor
    · intro h
      rcases List.mem_cons.mp h with h | h
      · omega
      · have := List.mem_range'_1.mp h
        omega
    · intro ⟨h₁, h₂⟩
      rcases Nat.eq_or_lt_of_le h₁ with he | hl
      · exact List.mem_cons.mpr (Or.inl he.symm)
      · refine List.mem_cons.mpr (Or.inr (List.mem_range'_1.mpr ?_))
        omega
  refine ⟨?_, ?_, hmem, ?_, ?_⟩
  · have hk : b + 1 - a = (b - a) + 1 := by omega
    rw [hk, write_receipts_run a (b - a) (by omega)]
    have : a + (b - a) = b := by omega
    rw [this]
  · have h := read_receipts_run_emits a b hab hb [] []
    simpa using h
  · intro h
    have := (hmem b).mp h
    omega
  · refine (foldl_acknowledge_lookup (a :: List.range' a (b - a)) b now rw ?_).trans hrec
    intro s hs
    have := (hmem s).mp hs
    omega

/-- Witness for claim C5 at the run [0, 2] and a recovery window holding
sequence 2. -/
theorem claim_C5_witness :
    (write_receipts_records (List.range' 0 (2 + 1 - 0)) =
      [.single 0, .range 0 2] ∧
    read_receipts ⟨receiptPayload [.single 0, .range 0 2], 0⟩ =
      .ok (0 :: List.range' 0 (2 - 0),
        ⟨receiptPayload [.single 0, .range 0 2],
         (receiptPayload [.single 0, .range 0 2]).length⟩) ∧
    (∀ s, s ∈ 0 :: List.range' 0 (2 - 0) ↔ 0 ≤ s ∧ s < 2) ∧
    2 ∉ 0 :: List.range' 0 (2 - 0) ∧
    alistLookup 2
      (((0 :: List.range' 0 (2 - 0)).foldl
          (fun w s => w.acknowledge s 0)
          (⟨[(2, ⟨[99], 0⟩)], []⟩ : RecoveryWindow)).unacknowledged) =
      some (⟨[99], 0⟩ : Record)) :=
  claim_C5 0 2 0 (by norm_num) (by norm_num)
    (⟨[(2, ⟨[99], 0⟩)], []⟩ : RecoveryWindow) (⟨[99], 0⟩ : Record) (by rfl)

/-- Claim C10: every control-message variant round-trips
(`deserialize(serialize(m)) = m`, consuming the whole buffer); the
`SystemAddresses` field serializes as 20 copies of the IPv4 encoding of
`INTERNAL_ADDRESS` (255.255.255.255:19132); and its deserialization
stops early, consuming nothing, exactly at a check where the remaining
buffer is the 16-byte timestamp trailer. -/
theorem claim_C10 :
    (∀ m : Message, m.wf →
      Message.deserialize ⟨m.serialize, 0⟩ =
        .ok (m, ⟨m.serialize, m.serialize.length⟩)) ∧
    serSystemAddresses =
      (List.replicate 20 (serUDPAddress ⟨.v4 [255, 255, 255, 255], 19132⟩)).flatten ∧
    (∀ c : Cursor, c.remaining = 16 → deserSystemAddresses c = .ok ((), c)) := by
  refine ⟨?_, rfl, ?_⟩
  · intro m hwf
    have h := message_roundtrip m hwf []
    simpa using h
  · intro c h
    have heq : deserSystemAddresses c =
        if c.remaining = 16 then .ok ((), c)
        else (P.bind deserUDPAddress (fun _ => sysAddrLoop 19)) c := rfl
    rw [heq, if_pos h]

/-- Witness for claim C10: the round trip at a concrete ConnectedPing. -/
theorem claim_C10_witness :
    Message.deserialize ⟨(Message.connectedPing 42).serialize, 0⟩ =
      .ok (Message.connectedPing 42,
        ⟨(Message.connectedPing 42).serialize,
         (Message.connectedPing 42).serialize.length⟩) :=
  claim_C10.1 (Message.connectedPing 42) (by norm_num [Message.wf])

theorem seqAdvanceLoop_run (n : Nat) :
    ∀ (w : SequenceWindow),
      ∃ j, j ≤ n ∧
        seqAdvanceLoop (List.range' w.start n) w =
          ⟨w.start + j, w.stop + j, w.highest, w.acks, w.nacks⟩ ∧
        (∀ m, m < j → w.start + m ∈ w.acks) ∧
        (j < n → w.start + j ∉ w.acks) := by
  induction n with
  | zero =>
      intro w
      refine ⟨0, le_refl 0, ?_, fun m hm => absurd hm (by omega), fun h => absurd h (by omega)⟩
      cases w
      simp [seqAdvanceLoop]
  | succ n ih =>
      intro w
      have hr : List.range' w.start (n + 1) = w.start :: List.range' (w.start + 1) n := rfl
      rw [hr, seqAdvanceLoop]
      by_cases h : w.start ∈ w.acks
      · rw [if_pos h]
        obtain ⟨j, hj, heq, hmem, hstop⟩ :=
          ih ⟨w.start + 1, w.stop + 1, w.highest, w.acks, w.nacks⟩
        refine ⟨j + 1, by omega, ?_, ?_, ?_⟩
        · rw [show List.range' (w.start + 1) n =
            List.range' (SequenceWindow.mk (w.start + 1) (w.stop + 1)
              w.highest w.acks w.nacks).start n from rfl]
          rw [heq]
          have e₁ : w.start + 1 + j = w.start + (j + 1) := by omega
          have e₂ : w.stop + 1 + j = w.stop + (j + 1) := by omega
          rw [e₁, e₂]
        · intro m hm
          cases m with
          | zero => simpa using h
          | succ m' =>
              have := hmem m' (by omega)
              simpa [Nat.add_assoc, Nat.add_comm, Nat.add_left_comm] using this
        · intro hlt
          have := hstop (by omega)
          simpa [Nat.add_assoc, Nat.add_comm, Nat.add_left_comm] using this
      · rw [if_neg h]
        refine ⟨0, by omega, ?_, fun m hm => absurd hm (by omega), fun _ => by simpa using h⟩
        cases w
        simp

theorem seqInv_step (w : SequenceWindow) (l : List Nat) (s : Nat)
    (hinv : SeqInv w l) (hs : s ∉ l) (hb : s ≤ WINDOW_SIZE) :
    SeqInv (w.receive s).2 (l ++ [s]) := by
  obtain ⟨h1, h2, h3, h4, h5, h6, h7, h8⟩ := hinv
  have hb' : s ≤ 2048 := hb
  have h4' : w.stop = w.start + 2048 := h4
  have hsa : s ∉ w.acks := by rw [h1]; exact hs
  have hstart : ¬ s < w.start := fun hlt => hs (h1 ▸ h3 s hlt)
  have hstop : ¬ w.stop < s := by omega
  have hc : ¬(s < w.start ∨ w.stop < s ∨ s ∈ w.acks) := by
    intro h
    rcases h with h | h | h
    exacts [hstart h, hstop h, hsa h]
  have hge : w.start ≤ s := Nat.le_of_not_lt hstart
  rw [receive_accept w s hc]
  by_cases hs0 : s = w.start
  · -- advance-run branch
    rw [if_pos hs0]
    show SeqInv
      (seqAdvanceLoop (List.range' w.start (w.stop - w.start))
        ⟨w.start, w.stop, if w.highest < s then s else w.highest,
         w.acks ++ [s], w.nacks.filter (fun x => x ≠ s)⟩) (l ++ [s])
    obtain ⟨j, hj, heq, hmem, hjstop⟩ :=
      seqAdvanceLoop_run (w.stop - w.start)
        ⟨w.start, w.stop, if w.highest < s then s else w.highest,
         w.acks ++ [s], w.nacks.filter (fun x => x ≠ s)⟩
    dsimp only at heq hmem hjstop
    rw [heq]
    set H := if w.highest < s then s else w.highest with hHdef
    have hH : w.highest ≤ H ∧ s ≤ H := by
      rw [hHdef]
      split <;> omega
    have hsA : w.start ∈ w.acks ++ [s] := by
      rw [← hs0]
      simp
    have hj1 : 1 ≤ j := by
      by_contra hj0
      have hj0' : j = 0 := by omega
      have hlt : j < w.stop - w.start := by omega
      have hni := hjstop hlt
      rw [hj0'] at hni
      simp only [Nat.add_zero] at hni
      exact hni hsA
    simp only [SeqInv]
    refine ⟨?_, ?_, ?_, ?_, ?_, ?_, ?_, ?_⟩
    · rw [h1]
    · intro x hx
      have hx' := List.mem_filter.mp hx
      simp only [decide_not, Bool.not_eq_eq_eq_not, Bool.not_true,
        decide_eq_false_iff_not] at hx'
      intro hmemA
      rcases List.mem_append.mp hmemA with hA | hA
      · exact h2 x hx'.1 hA
      · exact hx'.2 (by simpa using hA)
    · intro i hi
      by_cases hlt : i < w.start
      · exact List.mem_append.mpr (Or.inl (h3 i hlt))
      · have hge' : w.start ≤ i := Nat.le_of_not_lt hlt
        have hi' : i = w.start + (i - w.start) := by omega
        rw [hi']
        exact hmem (i - w.start) (by omega)
    · have : w.stop = w.start + WINDOW_SIZE := h4
      simp only [WINDOW_SIZE] at this ⊢
      omega
    · intro x hx
      rcases List.mem_append.mp hx with hA | hA
      · exact le_trans (h5 x hA) hH.1
      · have hxs : x = s := by simpa using hA
        rw [hxs]
        exact hH.2
    · have hlast : w.start + (j - 1) ∈ w.acks ++ [s] := hmem (j - 1) (by omega)
      have hbound : w.start + (j - 1) ≤ H := by
        rcases List.mem_append.mp hlast with hA | hA
        · exact le_trans (h5 _ hA) hH.1
        · have hxs : w.start + (j - 1) = s := by simpa using hA
          rw [hxs]
          exact hH.2
      omega
    · intro _ i hi₁ hi₂
      by_cases hl0 : l = []
      · obtain ⟨hh0, hst0⟩ := h8 hl0
        have hs0' : s = 0 := by rw [hs0, hst0]
        have hHeq : H = 0 := by
          rw [hHdef, hh0, hs0']
          simp
        rw [hHeq] at hi₂
        omega
      · rcases Nat.lt_or_ge w.highest w.start with hcase | hcase
        · have hHeq : H = s := by
            rw [hHdef, if_pos (by omega)]
          rw [hHeq] at hi₂
          omega
        · have hHeq : H = w.highest := by
            rw [hHdef, if_neg (by omega)]
          rw [hHeq] at hi₂
          have hcov := h7 hl0 i (by omega) hi₂
          rcases hcov with hA | hN
          · exact Or.inl (List.mem_append.mpr (Or.inl hA))
          · refine Or.inr (List.mem_filter.mpr ⟨hN, ?_⟩)
            simp only [decide_not, Bool.not_eq_eq_eq_not, Bool.not_true,
              decide_eq_false_iff_not]
            omega
    · intro habs
      exact absurd habs (by simp)
  · -- plain accept branch (s > start)
    rw [if_neg hs0]
    show SeqInv
      (⟨w.start, w.stop, if w.highest < s then s else w.highest,
        w.acks ++ [s],
        w.nacks.filter (fun x => x ≠ s) ++
          (List.range' w.start (s - w.start)).filter
            (fun i => i ∉ w.acks ++ [s])⟩ : SequenceWindow) (l ++ [s])
    have hsgt : w.start < s := by omega
    set H := if w.highest < s then s else w.highest with hHdef
    have hH : w.highest ≤ H ∧ s ≤ H := by
      rw [hHdef]
      split <;> omega
    simp only [SeqInv]
    refine ⟨?_, ?_, ?_, ?_, ?_, ?_, ?_, ?_⟩
    · rw [h1]
    · intro x hx
      rcases List.mem_append.mp hx with hN | hAdd
      · have hx' := List.mem_filter.mp hN
        simp only [decide_not, Bool.not_eq_eq_eq_not, Bool.not_true,
          decide_eq_false_iff_not] at hx'
        intro hmemA
        rcases List.mem_append.mp hmemA with hA | hA
        · exact h2 x hx'.1 hA
        · exact hx'.2 (by simpa using hA)
      · have hx' := List.mem_filter.mp hAdd
        intro hmemA
        have hnot := hx'.2
        simp only [decide_eq_true_eq] at hnot
        exact hnot hmemA
    · intro i hi
      exact List.mem_append.mpr (Or.inl (h3 i hi))
    · exact h4
    · intro x hx
      rcases List.mem_append.mp hx with hA | hA
      · exact le_trans (h5 x hA) hH.1
      · have hxs : x = s := by simpa using hA
        rw [hxs]
        exact hH.2
    · have := hH.1
      omega
    · intro _ i hi₁ hi₂
      rcases Nat.lt_trichotomy i s with hlt | heq | hgt
      · by_cases hiA : i ∈ w.acks ++ [s]
        · exact Or.inl hiA
        · refine Or.inr (List.mem_append.mpr (Or.inr (List.mem_filter.mpr ⟨?_, ?_⟩)))
          · exact List.mem_range'_1.mpr ⟨hi₁, by omega⟩
          · simpa using hiA
      · exact Or.inl (List.mem_append.mpr (Or.inr (by simp [heq])))
      · by_cases hcmp : w.highest < s
        · have hHeq : H = s := by rw [hHdef, if_pos hcmp]
          rw [hHeq] at hi₂
          exact absurd hi₂ (by omega)
        · have hHeq : H = w.highest := by rw [hHdef, if_neg hcmp]
          rw [hHeq] at hi₂
          by_cases hl0 : l = []
          · obtain ⟨hh0, _⟩ := h8 hl0
            exact absurd hi₂ (by omega)
          · have hcov := h7 hl0 i (by omega) hi₂
            rcases hcov with hA | hN
            · exact Or.inl (List.mem_append.mpr (Or.inl hA))
            · refine Or.inr (List.mem_append.mpr
                (Or.inl (List.mem_filter.mpr ⟨hN, ?_⟩)))
              simp only [decide_not, Bool.not_eq_eq_eq_not, Bool.not_true,
                decide_eq_false_iff_not]
              omega
    · intro habs
      exact absurd habs (by simp)

theorem seqInv_new : SeqInv SequenceWindow.new [] := by
  refine ⟨rfl, ?_, ?_, rfl, ?_, by decide, ?_, fun _ => ⟨rfl, rfl⟩⟩
  · intro x hx
    simp [SequenceWindow.new] at hx
  · intro i hi
    have hi' : i < 0 := hi
    omega
  · intro x hx
    simp [SequenceWindow.new] at hx
  · intro habs
    exact absurd rfl habs

theorem seqInv_all (l : List Nat) (hnd : l.Nodup)
    (hb : ∀ s ∈ l, s ≤ WINDOW_SIZE) :
    SeqInv (SequenceWindow.new.receiveAll l) l := by
  induction l using List.reverseRecOn with
  | nil => exact seqInv_new
  | append_singleton l s ih =>
      have hnd' := List.nodup_append.mp hnd
      have hsl : s ∉ l := by
        intro hmem
        exact (hnd'.2.2 hmem) (by simp)
      have hstep := seqInv_step (SequenceWindow.new.receiveAll l) l s
        (ih hnd'.1 (fun x hx => hb x (List.mem_append_left _ hx)))
        hsl (hb s (List.mem_append_right _ (by simp)))
      have hfold : SequenceWindow.new.receiveAll (l ++ [s]) =
          ((SequenceWindow.new.receiveAll l).receive s).2 := by
        unfold SequenceWindow.receiveAll
        rw [List.foldl_append]
        rfl
      rw [hfold]
      exact hstep

/-- Claim C7, counterexample: the claim quantifies over any stream of
unique sequence numbers.  Feeding the single value 2049 (just past the
fresh window's `end = 2048`) gets rejected, so the ack set stays empty
and is not equal to the set of delivered sequences. -/
theorem claim_C7_counterexample :
    ¬ (∀ s, s ∈ (SequenceWindow.new.receiveAll [2049]).acks ↔ s ∈ [2049]) := by
  intro h
  have hmem := (h 2049).mpr (by decide)
  have hacks : (SequenceWindow.new.receiveAll [2049]).acks = [] := by decide
  rw [hacks] at hmem
  exact absurd hmem (by decide)

/-- Claim C7 as amended: for any stream of unique sequence numbers within
the fresh window's acceptance range (≤ WINDOW_SIZE = 2048) delivered in
any order with no shift calls, the ack list equals the delivered list,
acks and nacks are disjoint, and once at least one value was delivered
every integer in `[start, highest]` is in the ack or the nack set. -/
theorem claim_C7 (l : List Nat) (hnd : l.Nodup)
    (hb : ∀ s ∈ l, s ≤ WINDOW_SIZE) :
    (∀ s, s ∈ (SequenceWindow.new.receiveAll l).acks ↔ s ∈ l) ∧
    (∀ s, s ∈ (SequenceWindow.new.receiveAll l).acks →
      s ∉ (SequenceWindow.new.receiveAll l).nacks) ∧
    (l ≠ [] → ∀ i, (SequenceWindow.new.receiveAll l).start ≤ i →
      i ≤ (SequenceWindow.new.receiveAll l).highest →
      i ∈ (SequenceWindow.new.receiveAll l).acks ∨
        i ∈ (SequenceWindow.new.receiveAll l).nacks) := by
  obtain ⟨h1, h2, _, _, _, _, h7, _⟩ := seqInv_all l hnd hb
  refine ⟨?_, ?_, h7⟩
  · intro s
    rw [h1]
  · intro s hsA hsN
    exact h2 s hsN hsA

/-- Witness for claim C7 on the out-of-order unique stream [5, 0, 3]. -/
theorem claim_C7_witness :
    ((∀ s, s ∈ (SequenceWindow.new.receiveAll [5, 0, 3]).acks ↔ s ∈ [5, 0, 3]) ∧
    (∀ s, s ∈ (SequenceWindow.new.receiveAll [5, 0, 3]).acks →
      s ∉ (SequenceWindow.new.receiveAll [5, 0, 3]).nacks) ∧
    (([5, 0, 3] : List Nat) ≠ [] → ∀ i,
      (SequenceWindow.new.receiveAll [5, 0, 3]).start ≤ i →
      i ≤ (SequenceWindow.new.receiveAll [5, 0, 3]).highest →
      i ∈ (SequenceWindow.new.receiveAll [5, 0, 3]).acks ∨
        i ∈ (SequenceWindow.new.receiveAll [5, 0, 3]).nacks)) :=
  claim_C7 [5, 0, 3] (by decide) (by decide)

end RakNet
